import Mathlib

/-!
# Verification of the session/matchmaking engine (signaling server)

Shallow embedding of the in-memory session/matchmaking engine of
`src/src/lib/supabase/admin.ts` (the socket.io signaling server):
the connection registry (`users : Map<string, User>`), the waiting pool
(`waitingPool : string[]`), the room registry
(`rooms : Map<string, {users: [string, string]}>`), the matchmaker
(`tryMatch`), and the event handlers.

Modelling conventions:
* JavaScript `Map` is modelled as an association list with `Map.get`/
  `Map.set`/`Map.delete` counterparts `mget`/`mset`/`mdel` (insertion
  order preserved, `set` updates in place, `delete` removes the key).
* Connection identifiers are `String` (socket ids).  JavaScript
  truthiness tests on a string (`if (user2Id)`, `if (data.partnerId)`)
  are translated as `≠ ""`.
* Room identifiers are `Nat`: `uuidv4()` is modelled by a counter
  `nextRoomId` that yields a fresh identifier at every room creation
  (uuid strings are always nonempty, hence `if (user.roomId)` is
  translated as `Option.isSome`, and `!user.persistentId` as
  emptiness/absence of the stored string).
* Outbound `io.to(target).emit(...)` calls are collected in program
  order in a `List Emit` returned next to the new state.
* The external report collaborator (`supabaseAdmin.functions.invoke`)
  is out of scope; its outcome is a `Bool` parameter of the
  `initiate-report` handler.  The handler is `async` and single
  threaded with run-to-completion semantics, so its body up to the
  `await` runs atomically; the embedding returns the state after the
  synchronous part (nothing after the `await` mutates state).
-/

namespace Yea

/-- Association-list counterpart of JavaScript `Map.prototype.get`. -/
def mget {κ α : Type} [DecidableEq κ] (m : List (κ × α)) (k : κ) : Option α :=
  (m.find? (fun e => decide (e.1 = k))).map Prod.snd

/-- Association-list counterpart of JavaScript `Map.prototype.set`:
update the value in place when the key is present, otherwise append. -/
def mset {κ α : Type} [DecidableEq κ] (m : List (κ × α)) (k : κ) (v : α) : List (κ × α) :=
  if m.any (fun e => decide (e.1 = k)) then
    m.map (fun e => if e.1 = k then (e.1, v) else e)
  else
    m ++ [(k, v)]

/-- Association-list counterpart of JavaScript `Map.prototype.delete`. -/
def mdel {κ α : Type} [DecidableEq κ] (m : List (κ × α)) (k : κ) : List (κ × α) :=
  m.filter (fun e => decide (e.1 ≠ k))

/-- `type UserState = "IDLE" | "SEARCHING" | "IN_CHAT"` -/
inductive UserState : Type
  | IDLE
  | SEARCHING
  | IN_CHAT
deriving DecidableEq, Repr

/-- The `start-searching` payload: `Profile & { id: string }` (the
profile display fields plus the user's persistent database id). -/
structure SearchProfile : Type where
  username : Option String := none
  avatar_url : Option String := none
  dob : Option String := none
  gender : Option String := none
  id : String
deriving DecidableEq, Repr

/-- `interface User { state; roomId?; profile?; persistentId? }` -/
structure User : Type where
  state : UserState
  roomId : Option Nat := none
  profile : Option SearchProfile := none
  persistentId : Option String := none
deriving DecidableEq, Repr

/-- The three in-memory stores (`users`, `waitingPool`, `rooms`) plus
the freshness counter standing in for `uuidv4()`. -/
structure EngineState : Type where
  users : List (String × User)
  waitingPool : List String
  rooms : List (Nat × (String × String))
  nextRoomId : Nat
deriving DecidableEq, Repr

/-- The server starts with empty registries and an empty pool. -/
def initialState : EngineState := ⟨[], [], [], 0⟩

/-- Outbound events (`io.to(target).emit(name, payload)`), in the order
they are emitted. -/
inductive Emit : Type
  | matchFound (target : String) (roomId : Nat) (partnerId : String)
      (initiator : Bool) (partnerProfile : Option SearchProfile)
  | partnerDisconnected (target : String)
  | autoSearching (target : String)
  | offerEv (target : String) (sdp : String) (senderId : String)
  | answerEv (target : String) (sdp : String) (senderId : String)
  | iceCandidateEv (target : String) (candidate : String) (senderId : String)
  | chatMessageEv (target : String) (message : String) (sender : String)
  | reportSuccessful (target : String)
  | reportFailed (target : String)
deriving DecidableEq, Repr

/-- `user && user.state === 'SEARCHING'` for an optional lookup result. -/
def isSearching : Option User → Bool
  | some u => decide (u.state = UserState.SEARCHING)
  | none => false

/-- In-place mutation `u.state = "IN_CHAT"; u.roomId = roomId` of the
record stored under `id` (JavaScript mutates the object held by the
map). -/
def setMatched (users : List (String × User)) (id : String) (roomId : Nat) :
    List (String × User) :=
  users.map (fun e =>
    if e.1 = id then (e.1, { e.2 with state := UserState.IN_CHAT, roomId := some roomId })
    else e)

/-- The state after one successful pairing step of `tryMatch`:
`rooms.set(roomId, ...)`, both users mutated to `IN_CHAT` with the new
room id, the two pool entries consumed, next uuid fresh. -/
def matchedState (s : EngineState) (user1Id user2Id : String) (rest : List String) :
    EngineState :=
  { s with
    users := setMatched (setMatched s.users user1Id s.nextRoomId) user2Id s.nextRoomId
    rooms := mset s.rooms s.nextRoomId (user1Id, user2Id)
    waitingPool := rest
    nextRoomId := s.nextRoomId + 1 }

/-- The two `match-found` notifications of one pairing step: `initiator`
is `true` for the first-popped id, `false` for the second. -/
def matchEmits (s : EngineState) (user1Id user2Id : String) : List Emit :=
  [Emit.matchFound user1Id s.nextRoomId user2Id true ((mget s.users user2Id).bind User.profile),
   Emit.matchFound user2Id s.nextRoomId user1Id false ((mget s.users user1Id).bind User.profile)]

/-- Fuel-indexed body of the `tryMatch` loop.  The fuel only provides
structural recursion: every iteration of the source `while` loop
shortens the pool by at least one, so `waitingPool.length` fuel always
suffices and the zero-fuel branch is never reached from `tryMatch`
(see `tryMatchGo_congr`). -/
def tryMatchGo : Nat → EngineState → EngineState × List Emit
  | 0, s => (s, [])
  | fuel + 1, s =>
    match s.waitingPool with
    | user1Id :: user2Id :: rest =>
      if isSearching (mget s.users user1Id) = false then
        tryMatchGo fuel { s with waitingPool := if user2Id ≠ "" then user2Id :: rest else rest }
      else if isSearching (mget s.users user2Id) = false then
        tryMatchGo fuel { s with waitingPool := if user1Id ≠ "" then user1Id :: rest else rest }
      else
        let r := tryMatchGo fuel (matchedState s user1Id user2Id rest)
        (r.1, matchEmits s user1Id user2Id ++ r.2)
    | _ => (s, [])

/-- `tryMatch`: drain the waiting pool two at a time.  A stale head is
discarded and the other popped id is unshifted back (guarded by JS
string truthiness `if (user2Id)`); two valid `SEARCHING` users get a
fresh room and both `match-found` notifications. -/
def tryMatch (s : EngineState) : EngineState × List Emit :=
  tryMatchGo s.waitingPool.length s

theorem tryMatchGo_congr (fuel1 : Nat) : ∀ (fuel2 : Nat) (s : EngineState),
    s.waitingPool.length ≤ fuel1 → s.waitingPool.length ≤ fuel2 →
    tryMatchGo fuel1 s = tryMatchGo fuel2 s := by
  induction fuel1 with
  | zero =>
    intro fuel2 s h1 h2
    have hp : s.waitingPool = [] := List.length_eq_zero.mp (Nat.le_zero.mp h1)
    cases fuel2 with
    | zero => rfl
    | succ f2 => simp only [tryMatchGo, hp]
  | succ f1 ih =>
    intro fuel2 s h1 h2
    cases fuel2 with
    | zero =>
      have hp : s.waitingPool = [] := List.length_eq_zero.mp (Nat.le_zero.mp h2)
      simp only [tryMatchGo, hp]
    | succ f2 =>
      simp only [tryMatchGo]
      cases hp : s.waitingPool with
      | nil => rfl
      | cons u1 t =>
        cases t with
        | nil => rfl
        | cons u2 rest =>
          dsimp only
          rw [hp] at h1 h2
          simp only [List.length_cons] at h1 h2
          have hpool1 : (if u2 ≠ "" then u2 :: rest else rest).length ≤ rest.length + 1 := by
            split <;> simp
          have hpool2 : (if u1 ≠ "" then u1 :: rest else rest).length ≤ rest.length + 1 := by
            split <;> simp
          by_cases hc1 : isSearching (mget s.users u1) = false
          · rw [if_pos hc1, if_pos hc1]
            refine ih f2 _ ?_ ?_
            · show (if u2 ≠ "" then u2 :: rest else rest).length ≤ f1
              omega
            · show (if u2 ≠ "" then u2 :: rest else rest).length ≤ f2
              omega
          · rw [if_neg hc1, if_neg hc1]
            by_cases hc2 : isSearching (mget s.users u2) = false
            · rw [if_pos hc2, if_pos hc2]
              refine ih f2 _ ?_ ?_
              · show (if u1 ≠ "" then u1 :: rest else rest).length ≤ f1
                omega
              · show (if u1 ≠ "" then u1 :: rest else rest).length ≤ f2
                omega
            · rw [if_neg hc2, if_neg hc2]
              have heq := ih f2 (matchedState s u1 u2 rest)
                (show rest.length ≤ f1 by omega) (show rest.length ≤ f2 by omega)
              rw [heq]

/-- `room.users.find(id => id !== socketId)`. -/
def findPartner (pair : String × String) (socketId : String) : Option String :=
  if pair.1 ≠ socketId then some pair.1
  else if pair.2 ≠ socketId then some pair.2
  else none

/-- `if (!waitingPool.includes(x)) waitingPool.unshift(x)`. -/
def requeueFront (pool : List String) (x : String) : List String :=
  if pool.contains x then pool else x :: pool

/-- `if (!waitingPool.includes(x)) waitingPool.push(x)`. -/
def appendBack (pool : List String) (x : String) : List String :=
  if pool.contains x then pool else pool ++ [x]

/-- JS truthiness of an optional string (`!user.persistentId`). -/
def truthyStr : Option String → Bool
  | none => false
  | some t => decide (t ≠ "")

/-- `io.on("connection", ...)`: `users.set(socket.id, { state: "IDLE" })`. -/
def onConnection (s : EngineState) (socketId : String) : EngineState × List Emit :=
  ({ s with users := mset s.users socketId { state := UserState.IDLE } }, [])

/-- The `start-searching` handler. -/
def startSearching (s : EngineState) (socketId : String) (profile : SearchProfile) :
    EngineState × List Emit :=
  match mget s.users socketId with
  | some user =>
    if user.state = UserState.IDLE ∨ user.state = UserState.SEARCHING then
      let users' := mset s.users socketId
        { user with state := UserState.SEARCHING, profile := some profile,
                    persistentId := some profile.id }
      tryMatch { s with users := users', waitingPool := appendBack s.waitingPool socketId }
    else (s, [])
  | none => (s, [])

/-- The `stop-searching` handler (`indexOf`/`splice` is `List.erase`). -/
def stopSearching (s : EngineState) (socketId : String) : EngineState × List Emit :=
  match mget s.users socketId with
  | some user =>
    if user.state = UserState.SEARCHING then
      ({ s with waitingPool := s.waitingPool.erase socketId,
                users := mset s.users socketId { user with state := UserState.IDLE } }, [])
    else (s, [])
  | none => (s, [])

/-- The `skip-chat` handler. -/
def skipChat (s : EngineState) (socketId : String) : EngineState × List Emit :=
  match mget s.users socketId with
  | none => (s, [])
  | some user =>
    if user.state ≠ UserState.IN_CHAT then (s, [])
    else match user.roomId with
    | none => (s, [])
    | some roomId =>
      match mget s.rooms roomId with
      | none => (s, [])
      | some room =>
        match findPartner room socketId with
        | none => (s, [])
        | some partnerId =>
          let partner? := mget s.users partnerId
          let users1 := mset s.users socketId { user with state := UserState.SEARCHING, roomId := none }
          let pool1 := appendBack s.waitingPool socketId
          let ems1 := [Emit.partnerDisconnected partnerId, Emit.autoSearching socketId]
          match partner? with
          | some partner =>
            let users2 := mset users1 partnerId
              { partner with state := UserState.SEARCHING, roomId := none }
            let pool2 := requeueFront pool1 partnerId
            let ems2 := ems1 ++ [Emit.autoSearching partnerId]
            let r := tryMatch { s with users := users2, waitingPool := pool2,
                                       rooms := mdel s.rooms roomId }
            (r.1, ems2 ++ r.2)
          | none =>
            let r := tryMatch { s with users := users1, waitingPool := pool1,
                                       rooms := mdel s.rooms roomId }
            (r.1, ems1 ++ r.2)

/-- The `stop-chat` handler. -/
def stopChat (s : EngineState) (socketId : String) : EngineState × List Emit :=
  match mget s.users socketId with
  | none => (s, [])
  | some user =>
    if user.state ≠ UserState.IN_CHAT then (s, [])
    else match user.roomId with
    | none => (s, [])
    | some roomId =>
      match mget s.rooms roomId with
      | none => (s, [])
      | some room =>
        match findPartner room socketId with
        | none => (s, [])
        | some partnerId =>
          let partner? := mget s.users partnerId
          let users1 := mset s.users socketId { user with state := UserState.IDLE, roomId := none }
          let ems1 := [Emit.partnerDisconnected partnerId]
          match partner? with
          | some partner =>
            let users2 := mset users1 partnerId
              { partner with state := UserState.SEARCHING, roomId := none }
            let pool2 := requeueFront s.waitingPool partnerId
            let ems2 := ems1 ++ [Emit.autoSearching partnerId]
            let r := tryMatch { s with users := users2, waitingPool := pool2,
                                       rooms := mdel s.rooms roomId }
            (r.1, ems2 ++ r.2)
          | none =>
            let r := tryMatch { s with users := users1,
                                       rooms := mdel s.rooms roomId }
            (r.1, ems1 ++ r.2)

/-- The WebRTC `offer` relay (unconditional forwarding). -/
def offerRelay (s : EngineState) (socketId partnerId sdp : String) :
    EngineState × List Emit :=
  (s, [Emit.offerEv partnerId sdp socketId])

/-- The WebRTC `answer` relay (unconditional forwarding). -/
def answerRelay (s : EngineState) (socketId partnerId sdp : String) :
    EngineState × List Emit :=
  (s, [Emit.answerEv partnerId sdp socketId])

/-- The WebRTC `ice-candidate` relay (unconditional forwarding). -/
def iceCandidateRelay (s : EngineState) (socketId partnerId candidate : String) :
    EngineState × List Emit :=
  (s, [Emit.iceCandidateEv partnerId candidate socketId])

/-- The `chat-message` relay, gated on the sender being `IN_CHAT` and
on truthiness of `data.partnerId`. -/
def chatMessage (s : EngineState) (socketId partnerId message : String) :
    EngineState × List Emit :=
  match mget s.users socketId with
  | some user =>
    if user.state = UserState.IN_CHAT ∧ partnerId ≠ "" then
      (s, [Emit.chatMessageEv partnerId message socketId])
    else (s, [])
  | none => (s, [])

/-- The `initiate-report` handler.  `reportOk` is the outcome of the
external `create-report-mvp` invocation, awaited after all cleanup. -/
def initiateReport (s : EngineState) (socketId partnerId : String) (reportOk : Bool) :
    EngineState × List Emit :=
  match mget s.users socketId, mget s.users partnerId with
  | some user, some partner =>
    if user.state = UserState.IN_CHAT ∧ user.roomId.isSome ∧
        truthyStr user.persistentId ∧ truthyStr partner.persistentId then
      match user.roomId with
      | some roomId =>
        let ems1 := [Emit.partnerDisconnected partnerId, Emit.partnerDisconnected socketId]
        let users1 := mset s.users socketId { user with state := UserState.IDLE, roomId := none }
        let users2 := mset users1 partnerId
          { partner with state := UserState.SEARCHING, roomId := none }
        let pool1 := requeueFront s.waitingPool partnerId
        let ems2 := ems1 ++ [Emit.autoSearching partnerId]
        let r := tryMatch { s with users := users2, waitingPool := pool1,
                                   rooms := mdel s.rooms roomId }
        let emsResult := if reportOk then [Emit.reportSuccessful socketId]
                         else [Emit.reportFailed socketId]
        (r.1, ems2 ++ r.2 ++ emsResult)
      | none => (s, [])
    else (s, [])
  | _, _ => (s, [])

/-- `handleDisconnect`: pool entry removed first, the partner (when the
user is in a live room) is requeued at the front (unguarded `unshift`)
and `tryMatch` runs before the room and the user record are deleted. -/
def handleDisconnect (s : EngineState) (socketId : String) : EngineState × List Emit :=
  match mget s.users socketId with
  | none => (s, [])
  | some user =>
    let pool1 := s.waitingPool.erase socketId
    if user.state = UserState.IN_CHAT then
      match user.roomId with
      | some roomId =>
        match mget s.rooms roomId with
        | some room =>
          match findPartner room socketId with
          | some partnerId =>
            match mget s.users partnerId with
            | some partner =>
              let users1 := mset s.users partnerId
                { partner with state := UserState.SEARCHING, roomId := none }
              let ems1 := [Emit.partnerDisconnected partnerId, Emit.autoSearching partnerId]
              let r := tryMatch { s with users := users1, waitingPool := partnerId :: pool1 }
              ({ r.1 with rooms := mdel r.1.rooms roomId, users := mdel r.1.users socketId },
               ems1 ++ r.2)
            | none =>
              ({ s with waitingPool := pool1, rooms := mdel s.rooms roomId,
                        users := mdel s.users socketId },
               [Emit.partnerDisconnected partnerId])
          | none =>
            ({ s with waitingPool := pool1, rooms := mdel s.rooms roomId,
                      users := mdel s.users socketId }, [])
        | none =>
          ({ s with waitingPool := pool1, users := mdel s.users socketId }, [])
      | none =>
        ({ s with waitingPool := pool1, users := mdel s.users socketId }, [])
    else
      ({ s with waitingPool := pool1, users := mdel s.users socketId }, [])

/-- Inbound events of the engine (one constructor per socket event the
server listens to, plus connection establishment). -/
inductive Event : Type
  | connect (socketId : String)
  | startSearching (socketId : String) (profile : SearchProfile)
  | stopSearching (socketId : String)
  | skipChat (socketId : String)
  | stopChat (socketId : String)
  | offer (socketId partnerId sdp : String)
  | answer (socketId partnerId sdp : String)
  | iceCandidate (socketId partnerId candidate : String)
  | chatMessage (socketId partnerId message : String)
  | initiateReport (socketId partnerId : String) (reportOk : Bool)
  | disconnect (socketId : String)
deriving DecidableEq, Repr

/-- One event handled to completion: new state and emitted events. -/
def stepE (s : EngineState) : Event → EngineState × List Emit
  | Event.connect id => onConnection s id
  | Event.startSearching id p => startSearching s id p
  | Event.stopSearching id => stopSearching s id
  | Event.skipChat id => skipChat s id
  | Event.stopChat id => stopChat s id
  | Event.offer id pid sdp => offerRelay s id pid sdp
  | Event.answer id pid sdp => answerRelay s id pid sdp
  | Event.iceCandidate id pid c => iceCandidateRelay s id pid c
  | Event.chatMessage id pid m => chatMessage s id pid m
  | Event.initiateReport id pid ok => initiateReport s id pid ok
  | Event.disconnect id => handleDisconnect s id

/-- State reached after one event. -/
def stepState (s : EngineState) (e : Event) : EngineState := (stepE s e).1

/-- State reached from the initial state by a sequence of events. -/
def run (es : List Event) : EngineState := es.foldl stepState initialState

/-- The reachable states of the engine: every state observable between
event handlers (run-to-completion semantics). -/
inductive Reachable : EngineState → Prop
  | init : Reachable initialState
  | step {s : EngineState} (e : Event) : Reachable s → Reachable (stepState s e)

theorem reachable_run (es : List Event) : Reachable (run es) := by
  suffices h : ∀ s, Reachable s → Reachable (es.foldl stepState s) from
    h initialState Reachable.init
  induction es with
  | nil => exact fun s hs => hs
  | cons e es ih => exact fun s hs => ih (stepState s e) (Reachable.step e hs)

/-! ## Association-list map lemmas -/

@[simp]
theorem mget_nil {κ α : Type} [DecidableEq κ] (k : κ) :
    mget ([] : List (κ × α)) k = none := rfl

@[simp]
theorem mget_cons {κ α : Type} [DecidableEq κ] (e : κ × α) (tl : List (κ × α)) (k : κ) :
    mget (e :: tl) k = if e.1 = k then some e.2 else mget tl k := by
  rw [mget, List.find?]
  by_cases h : e.1 = k <;> simp [h, mget]

theorem mget_append {κ α : Type} [DecidableEq κ] (m m' : List (κ × α)) (k : κ) :
    mget (m ++ m') k = match mget m k with
      | some v => some v
      | none => mget m' k := by
  induction m with
  | nil => simp
  | cons hd tl ih =>
    rw [List.cons_append, mget_cons, mget_cons]
    by_cases h : hd.1 = k <;> simp [h, ih]

theorem mget_map_upd {κ α : Type} [DecidableEq κ] (m : List (κ × α)) (k x : κ) (f : α → α) :
    mget (m.map (fun e => if e.1 = k then (e.1, f e.2) else e)) x =
      if x = k then (mget m x).map f else mget m x := by
  induction m with
  | nil => by_cases h : x = k <;> simp [h]
  | cons hd tl ih =>
    simp only [List.map_cons]
    by_cases hhd : hd.1 = k
    · simp only [if_pos hhd, mget_cons]
      by_cases hx : hd.1 = x
      · have hxk : x = k := hx ▸ hhd
        simp [hx, hxk]
      · simp only [if_neg hx, ih]
    · simp only [if_neg hhd, mget_cons]
      by_cases hx : hd.1 = x
      · have hxk : ¬ (x = k) := fun hh => hhd (hx.symm ▸ hh : hd.1 = k)
        simp [hx, hxk]
      · simp only [if_neg hx, ih]

theorem mget_isSome_of_any {κ α : Type} [DecidableEq κ] (m : List (κ × α)) (k : κ)
    (h : (m.any fun e => decide (e.1 = k)) = true) : (mget m k).isSome := by
  induction m with
  | nil => simp at h
  | cons hd tl ih =>
    simp only [List.any_cons, Bool.or_eq_true, decide_eq_true_eq] at h
    rw [mget_cons]
    rcases h with h | h
    · simp [h]
    · by_cases hhd : hd.1 = k
      · simp [hhd]
      · simpa [hhd] using ih h

theorem mget_eq_none_of_not_any {κ α : Type} [DecidableEq κ] (m : List (κ × α)) (k : κ)
    (h : ¬ (m.any fun e => decide (e.1 = k)) = true) : mget m k = none := by
  induction m with
  | nil => rfl
  | cons hd tl ih =>
    simp only [List.any_cons, Bool.or_eq_true, decide_eq_true_eq, not_or] at h
    rw [mget_cons, if_neg h.1]
    exact ih (by simpa using h.2)

theorem mget_mset_self {κ α : Type} [DecidableEq κ] (m : List (κ × α)) (k : κ) (v : α) :
    mget (mset m k v) k = some v := by
  rw [mset]
  split
  · rename_i hany
    rw [mget_map_upd m k k (fun _ => v), if_pos rfl]
    have := mget_isSome_of_any m k hany
    cases hm : mget m k with
    | some v' => simp
    | none => rw [hm] at this; simp at this
  · rw [mget_append]
    rename_i hany
    rw [mget_eq_none_of_not_any m k hany]
    simp

theorem mget_mset_ne {κ α : Type} [DecidableEq κ] (m : List (κ × α)) (k k' : κ) (v : α)
    (h : k' ≠ k) : mget (mset m k v) k' = mget m k' := by
  rw [mset]
  split
  · rw [mget_map_upd m k k' (fun _ => v), if_neg h]
  · rw [mget_append]
    cases hm : mget m k' with
    | some v' => simp
    | none =>
      have : ¬ (k = k') := fun hh => h hh.symm
      simp [this]

theorem mget_mdel_self {κ α : Type} [DecidableEq κ] (m : List (κ × α)) (k : κ) :
    mget (mdel m k) k = none := by
  induction m with
  | nil => simp [mdel]
  | cons hd tl ih =>
    rw [mdel, List.filter]
    by_cases hhd : hd.1 = k
    · simp only [hhd, ne_eq, not_true_eq_false, decide_False]
      exact ih
    · simp only [ne_eq, hhd, not_false_eq_true, decide_True, mget_cons, if_neg hhd]
      exact ih

theorem mget_mdel_ne {κ α : Type} [DecidableEq κ] (m : List (κ × α)) (k k' : κ)
    (h : k' ≠ k) : mget (mdel m k) k' = mget m k' := by
  induction m with
  | nil => simp [mdel]
  | cons hd tl ih =>
    rw [mdel, List.filter]
    by_cases hhd : hd.1 = k
    · simp only [hhd, ne_eq, not_true_eq_false, decide_False]
      rw [mget_cons, if_neg (hhd ▸ fun hh => h hh.symm)]
      exact ih
    · simp only [ne_eq, hhd, not_false_eq_true, decide_True, mget_cons]
      by_cases h2 : hd.1 = k'
      · simp [h2]
      · rw [if_neg h2, if_neg h2]
        exact ih

theorem mget_setMatched (users : List (String × User)) (id x : String) (rid : Nat) :
    mget (setMatched users id rid) x =
      if x = id then
        (mget users x).map (fun u => { u with state := UserState.IN_CHAT, roomId := some rid })
      else mget users x :=
  mget_map_upd users id x (fun u => { u with state := UserState.IN_CHAT, roomId := some rid })

theorem mget_isSome_mset {κ α : Type} [DecidableEq κ] (m : List (κ × α)) (k k' : κ) (v : α)
    (h : (mget m k').isSome) : (mget (mset m k v) k').isSome := by
  by_cases hk : k' = k
  · subst hk; rw [mget_mset_self]; simp
  · rw [mget_mset_ne _ _ _ _ hk]; exact h

theorem mget_isSome_setMatched (users : List (String × User)) (id x : String) (rid : Nat) :
    (mget (setMatched users id rid) x).isSome = (mget users x).isSome := by
  rw [mget_setMatched]
  by_cases h : x = id <;> simp [h]

/-! ## Characterization of one `tryMatch` step -/

theorem tryMatchGo_succ (fuel : Nat) (s : EngineState) :
    tryMatchGo (fuel + 1) s =
      match s.waitingPool with
      | u1 :: u2 :: rest =>
        if isSearching (mget s.users u1) = false then
          tryMatchGo fuel { s with waitingPool := if u2 ≠ "" then u2 :: rest else rest }
        else if isSearching (mget s.users u2) = false then
          tryMatchGo fuel { s with waitingPool := if u1 ≠ "" then u1 :: rest else rest }
        else
          ((tryMatchGo fuel (matchedState s u1 u2 rest)).1,
           matchEmits s u1 u2 ++ (tryMatchGo fuel (matchedState s u1 u2 rest)).2)
      | _ => (s, []) := rfl

theorem tryMatch_small (s : EngineState) (h : s.waitingPool.length < 2) :
    tryMatch s = (s, []) := by
  rw [tryMatch]
  cases hp : s.waitingPool with
  | nil => rfl
  | cons a t =>
    cases t with
    | nil =>
      show tryMatchGo 1 s = (s, [])
      rw [tryMatchGo_succ, hp]
    | cons b r =>
      rw [hp] at h
      simp only [List.length_cons] at h
      omega

theorem tryMatch_stale1 (s : EngineState) (u1 u2 : String) (rest : List String)
    (hp : s.waitingPool = u1 :: u2 :: rest)
    (h1 : isSearching (mget s.users u1) = false) :
    tryMatch s = tryMatch { s with waitingPool := if u2 ≠ "" then u2 :: rest else rest } := by
  have hlen : s.waitingPool.length = rest.length + 1 + 1 := by
    rw [hp]
    rfl
  rw [tryMatch, tryMatch, hlen, tryMatchGo_succ, hp]
  dsimp only
  rw [if_pos h1]
  refine tryMatchGo_congr _ _ _ ?_ ?_
  · show (if u2 ≠ "" then u2 :: rest else rest).length ≤ rest.length + 1
    split <;> simp
  · exact le_refl _

theorem tryMatch_stale2 (s : EngineState) (u1 u2 : String) (rest : List String)
    (hp : s.waitingPool = u1 :: u2 :: rest)
    (h1 : isSearching (mget s.users u1) = true)
    (h2 : isSearching (mget s.users u2) = false) :
    tryMatch s = tryMatch { s with waitingPool := if u1 ≠ "" then u1 :: rest else rest } := by
  have hlen : s.waitingPool.length = rest.length + 1 + 1 := by
    rw [hp]
    rfl
  rw [tryMatch, tryMatch, hlen, tryMatchGo_succ, hp]
  dsimp only
  rw [if_neg (by simp [h1]), if_pos h2]
  refine tryMatchGo_congr _ _ _ ?_ ?_
  · show (if u1 ≠ "" then u1 :: rest else rest).length ≤ rest.length + 1
    split <;> simp
  · exact le_refl _

theorem tryMatch_match (s : EngineState) (u1 u2 : String) (rest : List String)
    (hp : s.waitingPool = u1 :: u2 :: rest)
    (h1 : isSearching (mget s.users u1) = true)
    (h2 : isSearching (mget s.users u2) = true) :
    tryMatch s = ((tryMatch (matchedState s u1 u2 rest)).1,
      matchEmits s u1 u2 ++ (tryMatch (matchedState s u1 u2 rest)).2) := by
  have hlen : s.waitingPool.length = rest.length + 1 + 1 := by
    rw [hp]
    rfl
  rw [tryMatch, tryMatch, hlen, tryMatchGo_succ, hp]
  dsimp only
  rw [if_neg (by simp [h1]), if_neg (by simp [h2])]
  have heq : tryMatchGo (rest.length + 1) (matchedState s u1 u2 rest) =
      tryMatchGo (matchedState s u1 u2 rest).waitingPool.length (matchedState s u1 u2 rest) := by
    refine tryMatchGo_congr _ _ _ ?_ ?_
    · show rest.length ≤ rest.length + 1
      omega
    · exact le_refl _
  rw [heq]

/-- Custom induction principle following the `tryMatch` loop structure. -/
theorem tryMatch_induction (P : EngineState → Prop)
    (hsmall : ∀ s, s.waitingPool.length < 2 → P s)
    (hstale1 : ∀ s u1 u2 rest, s.waitingPool = u1 :: u2 :: rest →
      isSearching (mget s.users u1) = false →
      P { s with waitingPool := if u2 ≠ "" then u2 :: rest else rest } → P s)
    (hstale2 : ∀ s u1 u2 rest, s.waitingPool = u1 :: u2 :: rest →
      isSearching (mget s.users u1) = true →
      isSearching (mget s.users u2) = false →
      P { s with waitingPool := if u1 ≠ "" then u1 :: rest else rest } → P s)
    (hmatch : ∀ s u1 u2 rest, s.waitingPool = u1 :: u2 :: rest →
      isSearching (mget s.users u1) = true →
      isSearching (mget s.users u2) = true →
      P (matchedState s u1 u2 rest) → P s) :
    ∀ s, P s := by
  intro s
  generalize hn : s.waitingPool.length = n
  induction n using Nat.strong_induction_on generalizing s with
  | _ n ih =>
    cases hp : s.waitingPool with
    | nil =>
      exact hsmall s (by rw [hp]; simp)
    | cons u1 t =>
      cases t with
      | nil =>
        exact hsmall s (by rw [hp]; simp)
      | cons u2 rest =>
        rw [hp] at hn
        simp only [List.length_cons] at hn
        by_cases h1 : isSearching (mget s.users u1) = false
        · refine hstale1 s u1 u2 rest hp h1 (ih _ ?_ _ rfl)
          show (if u2 ≠ "" then u2 :: rest else rest).length < n
          split
          · simp only [List.length_cons]
            omega
          · omega
        · by_cases h2 : isSearching (mget s.users u2) = false
          · refine hstale2 s u1 u2 rest hp (by simpa using h1) h2 (ih _ ?_ _ rfl)
            show (if u1 ≠ "" then u1 :: rest else rest).length < n
            split
            · simp only [List.length_cons]
              omega
            · omega
          · refine hmatch s u1 u2 rest hp (by simpa using h1) (by simpa using h2)
              (ih _ ?_ _ rfl)
            show rest.length < n
            omega

/-- The matchmaker loop only stops when fewer than two entries remain,
so every post-`tryMatch` pool has at most one entry. -/
theorem tryMatch_pool_length (s : EngineState) :
    (tryMatch s).1.waitingPool.length ≤ 1 := by
  induction s using tryMatch_induction with
  | hsmall s h =>
    rw [tryMatch_small s h]
    show s.waitingPool.length ≤ 1
    omega
  | hstale1 s u1 u2 rest hp h1 ih =>
    rw [tryMatch_stale1 s u1 u2 rest hp h1]
    exact ih
  | hstale2 s u1 u2 rest hp h1 h2 ih =>
    rw [tryMatch_stale2 s u1 u2 rest hp h1 h2]
    exact ih
  | hmatch s u1 u2 rest hp h1 h2 ih =>
    rw [tryMatch_match s u1 u2 rest hp h1 h2]
    exact ih

/-- `tryMatch` never adds pool entries: its output pool is drawn from
its input pool. -/
theorem tryMatch_pool_subset (s : EngineState) :
    ∀ x, x ∈ (tryMatch s).1.waitingPool → x ∈ s.waitingPool := by
  induction s using tryMatch_induction with
  | hsmall s h =>
    intro x hx
    rw [tryMatch_small s h] at hx
    exact hx
  | hstale1 s u1 u2 rest hp h1 ih =>
    intro x hx
    rw [tryMatch_stale1 s u1 u2 rest hp h1] at hx
    have hmem := ih x hx
    rw [hp]
    by_cases h : u2 = ""
    · simp [h] at hmem
      simp [hmem]
    · simp [h] at hmem
      rcases hmem with hmem | hmem <;> simp [hmem]
  | hstale2 s u1 u2 rest hp h1 h2 ih =>
    intro x hx
    rw [tryMatch_stale2 s u1 u2 rest hp h1 h2] at hx
    have hmem := ih x hx
    rw [hp]
    by_cases h : u1 = ""
    · simp [h] at hmem
      simp [hmem]
    · simp [h] at hmem
      rcases hmem with hmem | hmem <;> simp [hmem]
  | hmatch s u1 u2 rest hp h1 h2 ih =>
    intro x hx
    rw [tryMatch_match s u1 u2 rest hp h1 h2] at hx
    have hmem := ih x hx
    rw [matchedState] at hmem
    rw [hp]
    simp only [List.mem_cons]
    exact Or.inr (Or.inr hmem)

/-- `tryMatch` preserves the domain of the connection registry. -/
theorem tryMatch_users_isSome (s : EngineState) (x : String) :
    (mget (tryMatch s).1.users x).isSome = (mget s.users x).isSome := by
  induction s using tryMatch_induction with
  | hsmall s h =>
    rw [tryMatch_small s h]
  | hstale1 s u1 u2 rest hp h1 ih =>
    rw [tryMatch_stale1 s u1 u2 rest hp h1]
    exact ih
  | hstale2 s u1 u2 rest hp h1 h2 ih =>
    rw [tryMatch_stale2 s u1 u2 rest hp h1 h2]
    exact ih
  | hmatch s u1 u2 rest hp h1 h2 ih =>
    rw [tryMatch_match s u1 u2 rest hp h1 h2]
    simp only []
    rw [ih]
    rw [matchedState]
    simp only []
    rw [mget_isSome_setMatched, mget_isSome_setMatched]

/-! ## Handler equation lemmas -/

theorem startSearching_no_user (s : EngineState) (id : String) (p : SearchProfile)
    (hu : mget s.users id = none) : startSearching s id p = (s, []) := by
  simp only [startSearching, hu]

theorem startSearching_in_chat (s : EngineState) (id : String) (p : SearchProfile)
    (user : User) (hu : mget s.users id = some user)
    (hst : user.state = UserState.IN_CHAT) : startSearching s id p = (s, []) := by
  simp only [startSearching, hu, hst]
  rw [if_neg (by simp)]

theorem startSearching_run (s : EngineState) (id : String) (p : SearchProfile)
    (user : User) (hu : mget s.users id = some user)
    (hst : user.state = UserState.IDLE ∨ user.state = UserState.SEARCHING) :
    startSearching s id p =
      tryMatch { s with
        users := mset s.users id
          { user with state := UserState.SEARCHING, profile := some p,
                      persistentId := some p.id }
        waitingPool := appendBack s.waitingPool id } := by
  simp only [startSearching, hu, if_pos hst]

theorem stopSearching_no_user (s : EngineState) (id : String)
    (hu : mget s.users id = none) : stopSearching s id = (s, []) := by
  simp only [stopSearching, hu]

theorem stopSearching_wrong_state (s : EngineState) (id : String) (user : User)
    (hu : mget s.users id = some user) (hst : user.state ≠ UserState.SEARCHING) :
    stopSearching s id = (s, []) := by
  simp only [stopSearching, hu, if_neg hst]

theorem stopSearching_run (s : EngineState) (id : String) (user : User)
    (hu : mget s.users id = some user) (hst : user.state = UserState.SEARCHING) :
    stopSearching s id =
      ({ s with waitingPool := s.waitingPool.erase id,
                users := mset s.users id { user with state := UserState.IDLE } }, []) := by
  simp only [stopSearching, hu, if_pos hst]

theorem chatMessage_no_user (s : EngineState) (id pid m : String)
    (hu : mget s.users id = none) : chatMessage s id pid m = (s, []) := by
  simp only [chatMessage, hu]

theorem chatMessage_blocked (s : EngineState) (id pid m : String) (user : User)
    (hu : mget s.users id = some user)
    (hng : ¬ (user.state = UserState.IN_CHAT ∧ pid ≠ "")) :
    chatMessage s id pid m = (s, []) := by
  simp only [chatMessage, hu, if_neg hng]

theorem chatMessage_run (s : EngineState) (id pid m : String) (user : User)
    (hu : mget s.users id = some user)
    (hg : user.state = UserState.IN_CHAT ∧ pid ≠ "") :
    chatMessage s id pid m = (s, [Emit.chatMessageEv pid m id]) := by
  simp only [chatMessage, hu, if_pos hg]

theorem skipChat_no_user (s : EngineState) (id : String)
    (hu : mget s.users id = none) : skipChat s id = (s, []) := by
  simp only [skipChat, hu]

theorem skipChat_not_in_chat (s : EngineState) (id : String) (user : User)
    (hu : mget s.users id = some user) (hst : user.state ≠ UserState.IN_CHAT) :
    skipChat s id = (s, []) := by
  simp only [skipChat, hu, if_pos hst]

theorem skipChat_no_roomid (s : EngineState) (id : String) (user : User)
    (hu : mget s.users id = some user) (hst : user.state = UserState.IN_CHAT)
    (hrm : user.roomId = none) : skipChat s id = (s, []) := by
  simp only [skipChat, hu, hrm]
  rw [if_neg (by simp [hst])]

theorem skipChat_no_room (s : EngineState) (id : String) (user : User) (roomId : Nat)
    (hu : mget s.users id = some user) (hst : user.state = UserState.IN_CHAT)
    (hrm : user.roomId = some roomId) (hroom : mget s.rooms roomId = none) :
    skipChat s id = (s, []) := by
  simp only [skipChat, hu, hrm, hroom]
  rw [if_neg (by simp [hst])]

theorem skipChat_no_partner (s : EngineState) (id : String) (user : User) (roomId : Nat)
    (room : String × String)
    (hu : mget s.users id = some user) (hst : user.state = UserState.IN_CHAT)
    (hrm : user.roomId = some roomId) (hroom : mget s.rooms roomId = some room)
    (hpid : findPartner room id = none) : skipChat s id = (s, []) := by
  simp only [skipChat, hu, hrm, hroom, hpid]
  rw [if_neg (by simp [hst])]

theorem skipChat_partner_gone (s : EngineState) (id : String) (user : User) (roomId : Nat)
    (room : String × String) (partnerId : String)
    (hu : mget s.users id = some user) (hst : user.state = UserState.IN_CHAT)
    (hrm : user.roomId = some roomId) (hroom : mget s.rooms roomId = some room)
    (hpid : findPartner room id = some partnerId)
    (hpartner : mget s.users partnerId = none) :
    skipChat s id =
      (let r := tryMatch { s with
          users := mset s.users id { user with state := UserState.SEARCHING, roomId := none }
          waitingPool := appendBack s.waitingPool id
          rooms := mdel s.rooms roomId }
       (r.1, [Emit.partnerDisconnected partnerId, Emit.autoSearching id] ++ r.2)) := by
  simp only [skipChat, hu, hrm, hroom, hpid, hpartner]
  rw [if_neg (by simp [hst])]

theorem skipChat_run (s : EngineState) (id : String) (user : User) (roomId : Nat)
    (room : String × String) (partnerId : String) (partner : User)
    (hu : mget s.users id = some user) (hst : user.state = UserState.IN_CHAT)
    (hrm : user.roomId = some roomId) (hroom : mget s.rooms roomId = some room)
    (hpid : findPartner room id = some partnerId)
    (hpartner : mget s.users partnerId = some partner) :
    skipChat s id =
      (let r := tryMatch { s with
          users := mset
            (mset s.users id { user with state := UserState.SEARCHING, roomId := none })
            partnerId { partner with state := UserState.SEARCHING, roomId := none }
          waitingPool := requeueFront (appendBack s.waitingPool id) partnerId
          rooms := mdel s.rooms roomId }
       (r.1, [Emit.partnerDisconnected partnerId, Emit.autoSearching id,
              Emit.autoSearching partnerId] ++ r.2)) := by
  simp only [skipChat, hu, hrm, hroom, hpid, hpartner]
  rw [if_neg (by simp [hst])]
  simp

theorem stopChat_no_user (s : EngineState) (id : String)
    (hu : mget s.users id = none) : stopChat s id = (s, []) := by
  simp only [stopChat, hu]

theorem stopChat_not_in_chat (s : EngineState) (id : String) (user : User)
    (hu : mget s.users id = some user) (hst : user.state ≠ UserState.IN_CHAT) :
    stopChat s id = (s, []) := by
  simp only [stopChat, hu, if_pos hst]

theorem stopChat_no_roomid (s : EngineState) (id : String) (user : User)
    (hu : mget s.users id = some user) (hst : user.state = UserState.IN_CHAT)
    (hrm : user.roomId = none) : stopChat s id = (s, []) := by
  simp only [stopChat, hu, hrm]
  rw [if_neg (by simp [hst])]

theorem stopChat_no_room (s : EngineState) (id : String) (user : User) (roomId : Nat)
    (hu : mget s.users id = some user) (hst : user.state = UserState.IN_CHAT)
    (hrm : user.roomId = some roomId) (hroom : mget s.rooms roomId = none) :
    stopChat s id = (s, []) := by
  simp only [stopChat, hu, hrm, hroom]
  rw [if_neg (by simp [hst])]

theorem stopChat_no_partner (s : EngineState) (id : String) (user : User) (roomId : Nat)
    (room : String × String)
    (hu : mget s.users id = some user) (hst : user.state = UserState.IN_CHAT)
    (hrm : user.roomId = some roomId) (hroom : mget s.rooms roomId = some room)
    (hpid : findPartner room id = none) : stopChat s id = (s, []) := by
  simp only [stopChat, hu, hrm, hroom, hpid]
  rw [if_neg (by simp [hst])]

theorem stopChat_partner_gone (s : EngineState) (id : String) (user : User) (roomId : Nat)
    (room : String × String) (partnerId : String)
    (hu : mget s.users id = some user) (hst : user.state = UserState.IN_CHAT)
    (hrm : user.roomId = some roomId) (hroom : mget s.rooms roomId = some room)
    (hpid : findPartner room id = some partnerId)
    (hpartner : mget s.users partnerId = none) :
    stopChat s id =
      (let r := tryMatch { s with
          users := mset s.users id { user with state := UserState.IDLE, roomId := none }
          rooms := mdel s.rooms roomId }
       (r.1, [Emit.partnerDisconnected partnerId] ++ r.2)) := by
  simp only [stopChat, hu, hrm, hroom, hpid, hpartner]
  rw [if_neg (by simp [hst])]

theorem stopChat_run (s : EngineState) (id : String) (user : User) (roomId : Nat)
    (room : String × String) (partnerId : String) (partner : User)
    (hu : mget s.users id = some user) (hst : user.state = UserState.IN_CHAT)
    (hrm : user.roomId = some roomId) (hroom : mget s.rooms roomId = some room)
    (hpid : findPartner room id = some partnerId)
    (hpartner : mget s.users partnerId = some partner) :
    stopChat s id =
      (let r := tryMatch { s with
          users := mset
            (mset s.users id { user with state := UserState.IDLE, roomId := none })
            partnerId { partner with state := UserState.SEARCHING, roomId := none }
          waitingPool := requeueFront s.waitingPool partnerId
          rooms := mdel s.rooms roomId }
       (r.1, [Emit.partnerDisconnected partnerId, Emit.autoSearching partnerId] ++ r.2)) := by
  simp only [stopChat, hu, hrm, hroom, hpid, hpartner]
  rw [if_neg (by simp [hst])]
  simp

theorem initiateReport_no_user (s : EngineState) (id pid : String) (ok : Bool)
    (hu : mget s.users id = none) : initiateReport s id pid ok = (s, []) := by
  simp only [initiateReport, hu]

theorem initiateReport_no_partner (s : EngineState) (id pid : String) (ok : Bool)
    (user : User) (hu : mget s.users id = some user)
    (hp : mget s.users pid = none) : initiateReport s id pid ok = (s, []) := by
  simp only [initiateReport, hu, hp]

theorem initiateReport_invalid (s : EngineState) (id pid : String) (ok : Bool)
    (user partner : User) (hu : mget s.users id = some user)
    (hp : mget s.users pid = some partner)
    (hng : ¬ (user.state = UserState.IN_CHAT ∧ user.roomId.isSome ∧
        truthyStr user.persistentId ∧ truthyStr partner.persistentId)) :
    initiateReport s id pid ok = (s, []) := by
  simp only [initiateReport, hu, hp, if_neg hng]

theorem initiateReport_run (s : EngineState) (id pid : String) (ok : Bool)
    (user partner : User) (roomId : Nat)
    (hu : mget s.users id = some user) (hp : mget s.users pid = some partner)
    (hst : user.state = UserState.IN_CHAT) (hrm : user.roomId = some roomId)
    (hpu : truthyStr user.persistentId = true)
    (hpp : truthyStr partner.persistentId = true) :
    initiateReport s id pid ok =
      (let r := tryMatch { s with
          users := mset
            (mset s.users id { user with state := UserState.IDLE, roomId := none })
            pid { partner with state := UserState.SEARCHING, roomId := none }
          waitingPool := requeueFront s.waitingPool pid
          rooms := mdel s.rooms roomId }
       (r.1, [Emit.partnerDisconnected pid, Emit.partnerDisconnected id,
              Emit.autoSearching pid] ++ r.2 ++
             (if ok then [Emit.reportSuccessful id] else [Emit.reportFailed id]))) := by
  simp only [initiateReport, hu, hp, hrm]
  rw [if_pos ⟨hst, by simp [hrm], hpu, hpp⟩]
  simp

theorem handleDisconnect_no_user (s : EngineState) (id : String)
    (hu : mget s.users id = none) : handleDisconnect s id = (s, []) := by
  simp only [handleDisconnect, hu]

theorem handleDisconnect_not_in_chat (s : EngineState) (id : String) (user : User)
    (hu : mget s.users id = some user) (hst : user.state ≠ UserState.IN_CHAT) :
    handleDisconnect s id =
      ({ s with waitingPool := s.waitingPool.erase id, users := mdel s.users id }, []) := by
  simp only [handleDisconnect, hu, if_neg hst]

theorem handleDisconnect_no_roomid (s : EngineState) (id : String) (user : User)
    (hu : mget s.users id = some user) (hst : user.state = UserState.IN_CHAT)
    (hrm : user.roomId = none) :
    handleDisconnect s id =
      ({ s with waitingPool := s.waitingPool.erase id, users := mdel s.users id }, []) := by
  simp only [handleDisconnect, hu, hrm, if_pos hst]

theorem handleDisconnect_no_room (s : EngineState) (id : String) (user : User) (roomId : Nat)
    (hu : mget s.users id = some user) (hst : user.state = UserState.IN_CHAT)
    (hrm : user.roomId = some roomId) (hroom : mget s.rooms roomId = none) :
    handleDisconnect s id =
      ({ s with waitingPool := s.waitingPool.erase id, users := mdel s.users id }, []) := by
  simp only [handleDisconnect, hu, hrm, hroom, if_pos hst]

theorem handleDisconnect_no_partner (s : EngineState) (id : String) (user : User)
    (roomId : Nat) (room : String × String)
    (hu : mget s.users id = some user) (hst : user.state = UserState.IN_CHAT)
    (hrm : user.roomId = some roomId) (hroom : mget s.rooms roomId = some room)
    (hpid : findPartner room id = none) :
    handleDisconnect s id =
      ({ s with waitingPool := s.waitingPool.erase id, rooms := mdel s.rooms roomId,
                users := mdel s.users id }, []) := by
  simp only [handleDisconnect, hu, hrm, hroom, hpid, if_pos hst]

theorem handleDisconnect_partner_gone (s : EngineState) (id : String) (user : User)
    (roomId : Nat) (room : String × String) (partnerId : String)
    (hu : mget s.users id = some user) (hst : user.state = UserState.IN_CHAT)
    (hrm : user.roomId = some roomId) (hroom : mget s.rooms roomId = some room)
    (hpid : findPartner room id = some partnerId)
    (hpartner : mget s.users partnerId = none) :
    handleDisconnect s id =
      ({ s with waitingPool := s.waitingPool.erase id, rooms := mdel s.rooms roomId,
                users := mdel s.users id }, [Emit.partnerDisconnected partnerId]) := by
  simp only [handleDisconnect, hu, hrm, hroom, hpid, hpartner, if_pos hst]

theorem handleDisconnect_run (s : EngineState) (id : String) (user : User)
    (roomId : Nat) (room : String × String) (partnerId : String) (partner : User)
    (hu : mget s.users id = some user) (hst : user.state = UserState.IN_CHAT)
    (hrm : user.roomId = some roomId) (hroom : mget s.rooms roomId = some room)
    (hpid : findPartner room id = some partnerId)
    (hpartner : mget s.users partnerId = some partner) :
    handleDisconnect s id =
      (let r := tryMatch { s with
          users := mset s.users partnerId
            { partner with state := UserState.SEARCHING, roomId := none }
          waitingPool := partnerId :: s.waitingPool.erase id }
       ({ r.1 with rooms := mdel r.1.rooms roomId, users := mdel r.1.users id },
        [Emit.partnerDisconnected partnerId, Emit.autoSearching partnerId] ++ r.2)) := by
  simp only [handleDisconnect, hu, hrm, hroom, hpid, hpartner, if_pos hst]

/-! ## List and pool helper lemmas -/

theorem findPartner_ne (pair : String × String) (id p : String)
    (h : findPartner pair id = some p) : p ≠ id := by
  rw [findPartner] at h
  split at h
  · rename_i hne
    injection h with h
    exact h ▸ hne
  · split at h
    · rename_i hne
      injection h with h
      exact h ▸ hne
    · exact absurd h (by simp)

theorem mem_appendBack (pool : List String) (id x : String)
    (h : x ∈ appendBack pool id) : x ∈ pool ∨ x = id := by
  rw [appendBack] at h
  split at h
  · exact Or.inl h
  · rcases List.mem_append.mp h with h | h
    · exact Or.inl h
    · exact Or.inr (by simpa using h)

theorem mem_requeueFront (pool : List String) (id x : String)
    (h : x ∈ requeueFront pool id) : x = id ∨ x ∈ pool := by
  rw [requeueFront] at h
  split at h
  · exact Or.inr h
  · rcases List.mem_cons.mp h with h | h
    · exact Or.inl h
    · exact Or.inr h

theorem not_mem_erase_self_of_short (l : List String) (x : String)
    (h : l.length ≤ 1) : x ∉ l.erase x := by
  match l with
  | [] => simp
  | [a] =>
    by_cases hax : a = x
    · subst hax
      simp
    · rw [List.erase_cons]
      rw [if_neg (by simpa using fun hh => hax hh)]
      intro hmem
      rw [List.erase_nil] at hmem
      rcases List.mem_cons.mp hmem with hh | hh
      · exact hax hh.symm
      · simp at hh
  | a :: b :: t => simp at h

/-! ## The between-handler pool invariant

Every pool-growing handler ends by invoking `tryMatch`, and the
`tryMatch` loop only stops when fewer than two entries remain; the
removing handlers (`stop-searching`, `disconnect`) only shrink the
pool.  Hence between handlers the pool holds at most one entry, and
that entry always names a registered user. -/

def PoolInv (s : EngineState) : Prop :=
  s.waitingPool.length ≤ 1 ∧ ∀ id ∈ s.waitingPool, (mget s.users id).isSome

theorem poolInv_tryMatch (s : EngineState)
    (h : ∀ id ∈ s.waitingPool, (mget s.users id).isSome) : PoolInv (tryMatch s).1 := by
  refine ⟨tryMatch_pool_length s, fun id hid => ?_⟩
  rw [tryMatch_users_isSome]
  exact h id (tryMatch_pool_subset s id hid)

theorem mget_isSome_mset_of {κ α : Type} [DecidableEq κ] (m : List (κ × α)) (k x : κ) (v : α)
    (h : x = k ∨ (mget m x).isSome) : (mget (mset m k v) x).isSome := by
  rcases h with h | h
  · subst h
    rw [mget_mset_self]
    simp
  · exact mget_isSome_mset m k x v h

theorem poolInv_step (s : EngineState) (e : Event) (h : PoolInv s) :
    PoolInv (stepState s e) := by
  obtain ⟨hlen, hmem⟩ := h
  cases e with
  | connect id =>
    simp only [stepState, stepE, onConnection]
    exact ⟨hlen, fun x hx => mget_isSome_mset_of _ _ _ _ (Or.inr (hmem x hx))⟩
  | startSearching id p =>
    simp only [stepState, stepE]
    cases hu : mget s.users id with
    | none =>
      rw [startSearching_no_user s id p hu]
      exact ⟨hlen, hmem⟩
    | some user =>
      by_cases hst : user.state = UserState.IDLE ∨ user.state = UserState.SEARCHING
      · rw [startSearching_run s id p user hu hst]
        apply poolInv_tryMatch
        intro x hx
        rcases mem_appendBack s.waitingPool id x hx with hx | hx
        · exact mget_isSome_mset_of _ _ _ _ (Or.inr (hmem x hx))
        · exact mget_isSome_mset_of _ _ _ _ (Or.inl hx)
      · have hst' : user.state = UserState.IN_CHAT := by
          cases hs0 : user.state
          · exact absurd (Or.inl hs0) hst
          · exact absurd (Or.inr hs0) hst
          · rfl
        rw [startSearching_in_chat s id p user hu hst']
        exact ⟨hlen, hmem⟩
  | stopSearching id =>
    simp only [stepState, stepE]
    cases hu : mget s.users id with
    | none =>
      rw [stopSearching_no_user s id hu]
      exact ⟨hlen, hmem⟩
    | some user =>
      by_cases hst : user.state = UserState.SEARCHING
      · rw [stopSearching_run s id user hu hst]
        refine ⟨le_trans (List.erase_sublist id s.waitingPool).length_le hlen, fun x hx => ?_⟩
        exact mget_isSome_mset_of _ _ _ _ (Or.inr (hmem x (List.mem_of_mem_erase hx)))
      · rw [stopSearching_wrong_state s id user hu hst]
        exact ⟨hlen, hmem⟩
  | skipChat id =>
    simp only [stepState, stepE]
    cases hu : mget s.users id with
    | none =>
      rw [skipChat_no_user s id hu]
      exact ⟨hlen, hmem⟩
    | some user =>
      by_cases hst : user.state = UserState.IN_CHAT
      case neg =>
        rw [skipChat_not_in_chat s id user hu hst]
        exact ⟨hlen, hmem⟩
      case pos =>
      cases hrm : user.roomId with
      | none =>
        rw [skipChat_no_roomid s id user hu hst hrm]
        exact ⟨hlen, hmem⟩
      | some roomId =>
      cases hroom : mget s.rooms roomId with
      | none =>
        rw [skipChat_no_room s id user roomId hu hst hrm hroom]
        exact ⟨hlen, hmem⟩
      | some room =>
      cases hpid : findPartner room id with
      | none =>
        rw [skipChat_no_partner s id user roomId room hu hst hrm hroom hpid]
        exact ⟨hlen, hmem⟩
      | some partnerId =>
      cases hpartner : mget s.users partnerId with
      | none =>
        rw [skipChat_partner_gone s id user roomId room partnerId hu hst hrm hroom hpid hpartner]
        dsimp only
        apply poolInv_tryMatch
        intro x hx
        rcases mem_appendBack s.waitingPool id x hx with hx | hx
        · exact mget_isSome_mset_of _ _ _ _ (Or.inr (hmem x hx))
        · exact mget_isSome_mset_of _ _ _ _ (Or.inl hx)
      | some partner =>
        rw [skipChat_run s id user roomId room partnerId partner hu hst hrm hroom hpid hpartner]
        dsimp only
        apply poolInv_tryMatch
        intro x hx
        rcases mem_requeueFront _ partnerId x hx with hx | hx
        · exact mget_isSome_mset_of _ _ _ _ (Or.inl hx)
        · rcases mem_appendBack s.waitingPool id x hx with hx | hx
          · exact mget_isSome_mset_of _ _ _ _
              (Or.inr (mget_isSome_mset_of _ _ _ _ (Or.inr (hmem x hx))))
          · exact mget_isSome_mset_of _ _ _ _
              (Or.inr (mget_isSome_mset_of _ _ _ _ (Or.inl hx)))
  | stopChat id =>
    simp only [stepState, stepE]
    cases hu : mget s.users id with
    | none =>
      rw [stopChat_no_user s id hu]
      exact ⟨hlen, hmem⟩
    | some user =>
      by_cases hst : user.state = UserState.IN_CHAT
      case neg =>
        rw [stopChat_not_in_chat s id user hu hst]
        exact ⟨hlen, hmem⟩
      case pos =>
      cases hrm : user.roomId with
      | none =>
        rw [stopChat_no_roomid s id user hu hst hrm]
        exact ⟨hlen, hmem⟩
      | some roomId =>
      cases hroom : mget s.rooms roomId with
      | none =>
        rw [stopChat_no_room s id user roomId hu hst hrm hroom]
        exact ⟨hlen, hmem⟩
      | some room =>
      cases hpid : findPartner room id with
      | none =>
        rw [stopChat_no_partner s id user roomId room hu hst hrm hroom hpid]
        exact ⟨hlen, hmem⟩
      | some partnerId =>
      cases hpartner : mget s.users partnerId with
      | none =>
        rw [stopChat_partner_gone s id user roomId room partnerId hu hst hrm hroom hpid hpartner]
        dsimp only
        apply poolInv_tryMatch
        intro x hx
        exact mget_isSome_mset_of _ _ _ _ (Or.inr (hmem x hx))
      | some partner =>
        rw [stopChat_run s id user roomId room partnerId partner hu hst hrm hroom hpid hpartner]
        dsimp only
        apply poolInv_tryMatch
        intro x hx
        rcases mem_requeueFront _ partnerId x hx with hx | hx
        · exact mget_isSome_mset_of _ _ _ _ (Or.inl hx)
        · exact mget_isSome_mset_of _ _ _ _
            (Or.inr (mget_isSome_mset_of _ _ _ _ (Or.inr (hmem x hx))))
  | offer id pid sdp =>
    exact ⟨hlen, hmem⟩
  | answer id pid sdp =>
    exact ⟨hlen, hmem⟩
  | iceCandidate id pid c =>
    exact ⟨hlen, hmem⟩
  | chatMessage id pid m =>
    simp only [stepState, stepE]
    cases hu : mget s.users id with
    | none =>
      rw [chatMessage_no_user s id pid m hu]
      exact ⟨hlen, hmem⟩
    | some user =>
      by_cases hg : user.state = UserState.IN_CHAT ∧ pid ≠ ""
      · rw [chatMessage_run s id pid m user hu hg]
        exact ⟨hlen, hmem⟩
      · rw [chatMessage_blocked s id pid m user hu hg]
        exact ⟨hlen, hmem⟩
  | initiateReport id pid ok =>
    simp only [stepState, stepE]
    cases hu : mget s.users id with
    | none =>
      rw [initiateReport_no_user s id pid ok hu]
      exact ⟨hlen, hmem⟩
    | some user =>
    cases hp : mget s.users pid with
    | none =>
      rw [initiateReport_no_partner s id pid ok user hu hp]
      exact ⟨hlen, hmem⟩
    | some partner =>
      by_cases hg : user.state = UserState.IN_CHAT ∧ user.roomId.isSome ∧
          truthyStr user.persistentId ∧ truthyStr partner.persistentId
      case neg =>
        rw [initiateReport_invalid s id pid ok user partner hu hp hg]
        exact ⟨hlen, hmem⟩
      case pos =>
        obtain ⟨hst, hrmSome, hpu, hpp⟩ := hg
        cases hrm : user.roomId with
        | none => rw [hrm] at hrmSome; simp at hrmSome
        | some roomId =>
          rw [initiateReport_run s id pid ok user partner roomId hu hp hst hrm hpu hpp]
          dsimp only
          apply poolInv_tryMatch
          intro x hx
          rcases mem_requeueFront _ pid x hx with hx | hx
          · exact mget_isSome_mset_of _ _ _ _ (Or.inl hx)
          · exact mget_isSome_mset_of _ _ _ _
              (Or.inr (mget_isSome_mset_of _ _ _ _ (Or.inr (hmem x hx))))
  | disconnect id =>
    simp only [stepState, stepE]
    have hbase : ∀ rooms', PoolInv
        ({ s with waitingPool := s.waitingPool.erase id, rooms := rooms',
                  users := mdel s.users id } : EngineState) := by
      intro rooms'
      refine ⟨le_trans (List.erase_sublist id s.waitingPool).length_le hlen, fun x hx => ?_⟩
      have hxp : x ∈ s.waitingPool := List.mem_of_mem_erase hx
      have hxid : x ≠ id := by
        intro hxe
        subst hxe
        exact not_mem_erase_self_of_short s.waitingPool x hlen hx
      rw [mget_mdel_ne _ _ _ hxid]
      exact hmem x hxp
    cases hu : mget s.users id with
    | none =>
      rw [handleDisconnect_no_user s id hu]
      exact ⟨hlen, hmem⟩
    | some user =>
      by_cases hst : user.state = UserState.IN_CHAT
      case neg =>
        rw [handleDisconnect_not_in_chat s id user hu hst]
        exact hbase s.rooms
      case pos =>
      cases hrm : user.roomId with
      | none =>
        rw [handleDisconnect_no_roomid s id user hu hst hrm]
        exact hbase s.rooms
      | some roomId =>
      cases hroom : mget s.rooms roomId with
      | none =>
        rw [handleDisconnect_no_room s id user roomId hu hst hrm hroom]
        exact hbase s.rooms
      | some room =>
      cases hpid : findPartner room id with
      | none =>
        rw [handleDisconnect_no_partner s id user roomId room hu hst hrm hroom hpid]
        exact hbase (mdel s.rooms roomId)
      | some partnerId =>
      cases hpartner : mget s.users partnerId with
      | none =>
        rw [handleDisconnect_partner_gone s id user roomId room partnerId hu hst hrm hroom
          hpid hpartner]
        exact hbase (mdel s.rooms roomId)
      | some partner =>
        rw [handleDisconnect_run s id user roomId room partnerId partner hu hst hrm hroom
          hpid hpartner]
        dsimp only
        set s2 : EngineState := { s with
          users := mset s.users partnerId
            { partner with state := UserState.SEARCHING, roomId := none }
          waitingPool := partnerId :: s.waitingPool.erase id } with hs2
        refine ⟨tryMatch_pool_length s2, fun x hx => ?_⟩
        have hxs2 : x ∈ s2.waitingPool := tryMatch_pool_subset s2 x hx
        have hxid : x ≠ id := by
          rw [hs2] at hxs2
          rcases List.mem_cons.mp hxs2 with hx2 | hx2
          · exact hx2 ▸ findPartner_ne room id partnerId hpid
          · intro hxe
            subst hxe
            exact not_mem_erase_self_of_short s.waitingPool x hlen hx2
        rw [mget_mdel_ne _ _ _ hxid, tryMatch_users_isSome]
        rw [hs2] at hxs2
        rcases List.mem_cons.mp hxs2 with hx2 | hx2
        · exact mget_isSome_mset_of _ _ _ _ (Or.inl hx2)
        · exact mget_isSome_mset_of _ _ _ _
            (Or.inr (hmem x (List.mem_of_mem_erase hx2)))

/-- Every reachable state satisfies the pool invariant. -/
theorem poolInv_reachable (s : EngineState) (h : Reachable s) : PoolInv s := by
  induction h with
  | init => exact ⟨by simp [initialState], by simp [initialState]⟩
  | step e hs ih => exact poolInv_step _ e ih

/-- Only `handleDisconnect socketId` can remove `socketId` from the
connection registry: every other event preserves its registration. -/
theorem users_isSome_step (s : EngineState) (e : Event) (id : String)
    (hne : ∀ j, e = Event.disconnect j → j ≠ id)
    (h : (mget s.users id).isSome) : (mget (stepState s e).users id).isSome := by
  cases e with
  | connect j =>
    simp only [stepState, stepE, onConnection]
    exact mget_isSome_mset_of _ _ _ _ (Or.inr h)
  | startSearching j p =>
    simp only [stepState, stepE]
    cases hu : mget s.users j with
    | none =>
      rw [startSearching_no_user s j p hu]
      exact h
    | some user =>
      by_cases hst : user.state = UserState.IDLE ∨ user.state = UserState.SEARCHING
      · rw [startSearching_run s j p user hu hst]
        rw [tryMatch_users_isSome]
        exact mget_isSome_mset_of _ _ _ _ (Or.inr h)
      · have hst' : user.state = UserState.IN_CHAT := by
          cases hs0 : user.state
          · exact absurd (Or.inl hs0) hst
          · exact absurd (Or.inr hs0) hst
          · rfl
        rw [startSearching_in_chat s j p user hu hst']
        exact h
  | stopSearching j =>
    simp only [stepState, stepE]
    cases hu : mget s.users j with
    | none =>
      rw [stopSearching_no_user s j hu]
      exact h
    | some user =>
      by_cases hst : user.state = UserState.SEARCHING
      · rw [stopSearching_run s j user hu hst]
        exact mget_isSome_mset_of _ _ _ _ (Or.inr h)
      · rw [stopSearching_wrong_state s j user hu hst]
        exact h
  | skipChat j =>
    simp only [stepState, stepE]
    cases hu : mget s.users j with
    | none =>
      rw [skipChat_no_user s j hu]
      exact h
    | some user =>
      by_cases hst : user.state = UserState.IN_CHAT
      case neg =>
        rw [skipChat_not_in_chat s j user hu hst]
        exact h
      case pos =>
      cases hrm : user.roomId with
      | none =>
        rw [skipChat_no_roomid s j user hu hst hrm]
        exact h
      | some roomId =>
      cases hroom : mget s.rooms roomId with
      | none =>
        rw [skipChat_no_room s j user roomId hu hst hrm hroom]
        exact h
      | some room =>
      cases hpid : findPartner room j with
      | none =>
        rw [skipChat_no_partner s j user roomId room hu hst hrm hroom hpid]
        exact h
      | some partnerId =>
      cases hpartner : mget s.users partnerId with
      | none =>
        rw [skipChat_partner_gone s j user roomId room partnerId hu hst hrm hroom hpid hpartner]
        dsimp only
        rw [tryMatch_users_isSome]
        exact mget_isSome_mset_of _ _ _ _ (Or.inr h)
      | some partner =>
        rw [skipChat_run s j user roomId room partnerId partner hu hst hrm hroom hpid hpartner]
        dsimp only
        rw [tryMatch_users_isSome]
        exact mget_isSome_mset_of _ _ _ _
          (Or.inr (mget_isSome_mset_of _ _ _ _ (Or.inr h)))
  | stopChat j =>
    simp only [stepState, stepE]
    cases hu : mget s.users j with
    | none =>
      rw [stopChat_no_user s j hu]
      exact h
    | some user =>
      by_cases hst : user.state = UserState.IN_CHAT
      case neg =>
        rw [stopChat_not_in_chat s j user hu hst]
        exact h
      case pos =>
      cases hrm : user.roomId with
      | none =>
        rw [stopChat_no_roomid s j user hu hst hrm]
        exact h
      | some roomId =>
      cases hroom : mget s.rooms roomId with
      | none =>
        rw [stopChat_no_room s j user roomId hu hst hrm hroom]
        exact h
      | some room =>
      cases hpid : findPartner room j with
      | none =>
        rw [stopChat_no_partner s j user roomId room hu hst hrm hroom hpid]
        exact h
      | some partnerId =>
      cases hpartner : mget s.users partnerId with
      | none =>
        rw [stopChat_partner_gone s j user roomId room partnerId hu hst hrm hroom hpid hpartner]
        dsimp only
        rw [tryMatch_users_isSome]
        exact mget_isSome_mset_of _ _ _ _ (Or.inr h)
      | some partner =>
        rw [stopChat_run s j user roomId room partnerId partner hu hst hrm hroom hpid hpartner]
        dsimp only
        rw [tryMatch_users_isSome]
        exact mget_isSome_mset_of _ _ _ _
          (Or.inr (mget_isSome_mset_of _ _ _ _ (Or.inr h)))
  | offer j pid sdp => exact h
  | answer j pid sdp => exact h
  | iceCandidate j pid c => exact h
  | chatMessage j pid m =>
    simp only [stepState, stepE]
    cases hu : mget s.users j with
    | none =>
      rw [chatMessage_no_user s j pid m hu]
      exact h
    | some user =>
      by_cases hg : user.state = UserState.IN_CHAT ∧ pid ≠ ""
      · rw [chatMessage_run s j pid m user hu hg]
        exact h
      · rw [chatMessage_blocked s j pid m user hu hg]
        exact h
  | initiateReport j pid ok =>
    simp only [stepState, stepE]
    cases hu : mget s.users j with
    | none =>
      rw [initiateReport_no_user s j pid ok hu]
      exact h
    | some user =>
    cases hp : mget s.users pid with
    | none =>
      rw [initiateReport_no_partner s j pid ok user hu hp]
      exact h
    | some partner =>
      by_cases hg : user.state = UserState.IN_CHAT ∧ user.roomId.isSome ∧
          truthyStr user.persistentId ∧ truthyStr partner.persistentId
      case neg =>
        rw [initiateReport_invalid s j pid ok user partner hu hp hg]
        exact h
      case pos =>
        obtain ⟨hst, hrmSome, hpu, hpp⟩ := hg
        cases hrm : user.roomId with
        | none => rw [hrm] at hrmSome; simp at hrmSome
        | some roomId =>
          rw [initiateReport_run s j pid ok user partner roomId hu hp hst hrm hpu hpp]
          dsimp only
          rw [tryMatch_users_isSome]
          exact mget_isSome_mset_of _ _ _ _
            (Or.inr (mget_isSome_mset_of _ _ _ _ (Or.inr h)))
  | disconnect j =>
    have hj : j ≠ id := hne j rfl
    simp only [stepState, stepE]
    cases hu : mget s.users j with
    | none =>
      rw [handleDisconnect_no_user s j hu]
      exact h
    | some user =>
      by_cases hst : user.state = UserState.IN_CHAT
      case neg =>
        rw [handleDisconnect_not_in_chat s j user hu hst]
        rw [mget_mdel_ne _ _ _ (fun hh => hj hh.symm)]
        exact h
      case pos =>
      cases hrm : user.roomId with
      | none =>
        rw [handleDisconnect_no_roomid s j user hu hst hrm]
        rw [mget_mdel_ne _ _ _ (fun hh => hj hh.symm)]
        exact h
      | some roomId =>
      cases hroom : mget s.rooms roomId with
      | none =>
        rw [handleDisconnect_no_room s j user roomId hu hst hrm hroom]
        rw [mget_mdel_ne _ _ _ (fun hh => hj hh.symm)]
        exact h
      | some room =>
      cases hpid : findPartner room j with
      | none =>
        rw [handleDisconnect_no_partner s j user roomId room hu hst hrm hroom hpid]
        rw [mget_mdel_ne _ _ _ (fun hh => hj hh.symm)]
        exact h
      | some partnerId =>
      cases hpartner : mget s.users partnerId with
      | none =>
        rw [handleDisconnect_partner_gone s j user roomId room partnerId hu hst hrm hroom
          hpid hpartner]
        rw [mget_mdel_ne _ _ _ (fun hh => hj hh.symm)]
        exact h
      | some partner =>
        rw [handleDisconnect_run s j user roomId room partnerId partner hu hst hrm hroom
          hpid hpartner]
        dsimp only
        rw [mget_mdel_ne _ _ _ (fun hh => hj hh.symm), tryMatch_users_isSome]
        exact mget_isSome_mset_of _ _ _ _ (Or.inr h)

/-- After `disconnect id`, `id` is gone from both the pool (removed
before the record) and the connection registry. -/
theorem disconnect_clears (s : EngineState) (id : String)
    (hlen : s.waitingPool.length ≤ 1)
    (hpoolUsers : ∀ x ∈ s.waitingPool, (mget s.users x).isSome) :
    id ∉ (stepState s (Event.disconnect id)).waitingPool ∧
      mget (stepState s (Event.disconnect id)).users id = none := by
  simp only [stepState, stepE]
  cases hu : mget s.users id with
  | none =>
    rw [handleDisconnect_no_user s id hu]
    refine ⟨fun hmem => ?_, hu⟩
    have := hpoolUsers id hmem
    rw [hu] at this
    simp at this
  | some user =>
    have hbase : ∀ rooms',
        id ∉ ({ s with waitingPool := s.waitingPool.erase id, rooms := rooms',
                       users := mdel s.users id } : EngineState).waitingPool ∧
        mget ({ s with waitingPool := s.waitingPool.erase id, rooms := rooms',
                       users := mdel s.users id } : EngineState).users id = none := by
      intro rooms'
      exact ⟨not_mem_erase_self_of_short s.waitingPool id hlen, mget_mdel_self s.users id⟩
    by_cases hst : user.state = UserState.IN_CHAT
    case neg =>
      rw [handleDisconnect_not_in_chat s id user hu hst]
      exact hbase s.rooms
    case pos =>
    cases hrm : user.roomId with
    | none =>
      rw [handleDisconnect_no_roomid s id user hu hst hrm]
      exact hbase s.rooms
    | some roomId =>
    cases hroom : mget s.rooms roomId with
    | none =>
      rw [handleDisconnect_no_room s id user roomId hu hst hrm hroom]
      exact hbase s.rooms
    | some room =>
    cases hpid : findPartner room id with
    | none =>
      rw [handleDisconnect_no_partner s id user roomId room hu hst hrm hroom hpid]
      exact hbase (mdel s.rooms roomId)
    | some partnerId =>
    cases hpartner : mget s.users partnerId with
    | none =>
      rw [handleDisconnect_partner_gone s id user roomId room partnerId hu hst hrm hroom
        hpid hpartner]
      exact hbase (mdel s.rooms roomId)
    | some partner =>
      rw [handleDisconnect_run s id user roomId room partnerId partner hu hst hrm hroom
        hpid hpartner]
      dsimp only
      constructor
      · intro hmem
        have hxs2 := tryMatch_pool_subset _ id hmem
        rcases List.mem_cons.mp hxs2 with hx2 | hx2
        · exact findPartner_ne room id partnerId hpid hx2.symm
        · exact not_mem_erase_self_of_short s.waitingPool id hlen hx2
      · exact mget_mdel_self _ id

/-! ## Claim theorems -/

theorem nodup_of_short (l : List String) (h : l.length ≤ 1) : l.Nodup := by
  match l with
  | [] => exact List.nodup_nil
  | [a] => simp
  | a :: b :: t => simp at h

/-- C2: in every reachable state of the engine the waiting pool has no
duplicate entries (each connection id occurs at most once); in
particular two consecutive `start-searching` events for the same
connection leave at most one pool entry for it, and a `disconnect`
(with its partner requeue) leaves a duplicate-free pool. -/
theorem claim_C2 (s : EngineState) (h : Reachable s) :
    s.waitingPool.Nodup ∧
    (∀ id p1 p2,
      (stepState (stepState s (Event.startSearching id p1))
        (Event.startSearching id p2)).waitingPool.count id ≤ 1) ∧
    (∀ id, (stepState s (Event.disconnect id)).waitingPool.Nodup) := by
  refine ⟨nodup_of_short _ (poolInv_reachable s h).1, fun id p1 p2 => ?_, fun id => ?_⟩
  · have h2 : Reachable (stepState (stepState s (Event.startSearching id p1))
        (Event.startSearching id p2)) :=
      Reachable.step _ (Reachable.step _ h)
    exact le_trans (List.count_le_length _ _) (poolInv_reachable _ h2).1
  · exact nodup_of_short _ (poolInv_reachable _ (Reachable.step _ h)).1

/-- Profile used by concrete witness runs. -/
def profA : SearchProfile := { id := "pa" }

/-- Events reaching a state with a nonempty waiting pool. -/
def wit2Events : List Event := [Event.connect "A", Event.startSearching "A" profA]

/-- Witness for C2 at a concrete reachable state whose pool is ["A"]. -/
theorem claim_C2_witness : (run wit2Events).waitingPool.Nodup :=
  (claim_C2 (run wit2Events) (reachable_run wit2Events)).1

/-- C9: in every reachable state, (a) every connection id in the
waiting pool is a key of the connection registry; (b) `disconnect`
removes the user's pool entry and only then destroys the record, so
afterwards the id is in neither; (c) no event other than the user's own
`disconnect` destroys its registry record. -/
theorem claim_C9 (s : EngineState) (h : Reachable s) :
    (∀ id ∈ s.waitingPool, (mget s.users id).isSome) ∧
    (∀ id, id ∉ (stepState s (Event.disconnect id)).waitingPool ∧
           mget (stepState s (Event.disconnect id)).users id = none) ∧
    (∀ e id, (∀ j, e = Event.disconnect j → j ≠ id) →
      (mget s.users id).isSome → (mget (stepState s e).users id).isSome) := by
  obtain ⟨hlen, hmem⟩ := poolInv_reachable s h
  exact ⟨hmem, fun id => disconnect_clears s id hlen hmem,
    fun e id hne hs => users_isSome_step s e id hne hs⟩

/-- Witness for C9 at a concrete reachable state whose pool is ["A"]:
the pooled id A is registered. -/
theorem claim_C9_witness :
    (mget (run wit2Events).users "A").isSome :=
  (claim_C9 (run wit2Events) (reachable_run wit2Events)).1 "A" (by decide)

/-- Profile for witness user B. -/
def profB : SearchProfile := { id := "pb" }

/-- Profile for witness user C. -/
def profC : SearchProfile := { id := "pc" }

/-- Events reaching a consistent state: A and B matched in room 0,
C searching in the pool. -/
def c1Pre : List Event :=
  [Event.connect "A", Event.connect "B", Event.connect "C",
   Event.startSearching "A" profA, Event.startSearching "B" profB,
   Event.startSearching "C" profC]

/-- The same run followed by a report from A that names C — a user A is
not paired with — as the partner. -/
def c1Events : List Event := c1Pre ++ [Event.initiateReport "A" "C" true]

/-- The room/user consistency property of claim C1, decidably: every
room holds two distinct member ids, both mapping to IN_CHAT users whose
roomId is that room, and every IN_CHAT user has a roomId resolving to a
room listing it. -/
def roomUserConsistent (s : EngineState) : Bool :=
  s.rooms.all (fun e =>
    decide (e.2.1 ≠ e.2.2) &&
    (match mget s.users e.2.1 with
     | some u => decide (u.state = UserState.IN_CHAT) && decide (u.roomId = some e.1)
     | none => false) &&
    (match mget s.users e.2.2 with
     | some u => decide (u.state = UserState.IN_CHAT) && decide (u.roomId = some e.1)
     | none => false)) &&
  s.users.all (fun e =>
    if e.2.state = UserState.IN_CHAT then
      match e.2.roomId with
      | some rid =>
        match mget s.rooms rid with
        | some ab => decide (e.1 = ab.1) || decide (e.1 = ab.2)
        | none => false
      | none => false
    else true)

/-- C1 (code bug): the room/user consistency invariant fails in a
reachable state.  With A and B matched in room 0 and C searching, the
event `initiate-report` from A naming C as partner passes the handler
guard (the handler never checks that the named partner is the room partner of A),
dissolves room 0 and leaves B IN_CHAT with a roomId that resolves to no
live room — violating the invariant one event after a state satisfying
it. -/
theorem claim_C1 :
    roomUserConsistent (run c1Pre) = true ∧
    run c1Events = stepState (run c1Pre) (Event.initiateReport "A" "C" true) ∧
    roomUserConsistent (run c1Events) = false ∧
    mget (run c1Events).users "B" =
      some { state := UserState.IN_CHAT, roomId := some 0, profile := some profB,
             persistentId := some "pb" } ∧
    mget (run c1Events).rooms 0 = none := by
  exact ⟨by decide, by decide, by decide, by decide, by decide⟩

/-- Whether `a` and `b` are currently paired together in one live room
(the precondition claim C4 says `initiate-report` enforces). -/
def pairedTogether (s : EngineState) (a b : String) : Bool :=
  match mget s.users a with
  | some u =>
    match u.roomId with
    | some rid =>
      match mget s.rooms rid with
      | some ab => decide (u.state = UserState.IN_CHAT) &&
          (decide (ab = (a, b)) || decide (ab = (b, a)))
      | none => false
    | none => false
  | none => false

/-- C4 (code bug): an `initiate-report` whose named partner is not the
actual room partner of the reporter is not rejected: in the reachable state
where A is paired with B and C is merely searching, the report by A naming C
changes the engine state (A goes IDLE, room 0 is deleted) and emits
notifications, although the claimed precondition (both parties paired
together) is false. -/
theorem claim_C4 :
    pairedTogether (run c1Pre) "A" "C" = false ∧
    pairedTogether (run c1Pre) "A" "B" = true ∧
    (initiateReport (run c1Pre) "A" "C" true).1 ≠ run c1Pre ∧
    (initiateReport (run c1Pre) "A" "C" true).2 ≠ [] := by
  exact ⟨by decide, by decide, by decide, by decide⟩

/-- C8: a chat-message is forwarded (tagged with the sender id) only
when the sender resolves to a user in state IN_CHAT (and the target id
is truthy), whereas offer, answer and ice-candidate are forwarded
verbatim to the named target unconditionally, in every sender
state. -/
theorem claim_C8 :
    (∀ s id pid m, (chatMessage s id pid m).2 ≠ [] →
      ∃ u, mget s.users id = some u ∧ u.state = UserState.IN_CHAT) ∧
    (∀ s id pid m u, mget s.users id = some u → u.state = UserState.IN_CHAT → pid ≠ "" →
      chatMessage s id pid m = (s, [Emit.chatMessageEv pid m id])) ∧
    (∀ s id pid sdp, offerRelay s id pid sdp = (s, [Emit.offerEv pid sdp id])) ∧
    (∀ s id pid sdp, answerRelay s id pid sdp = (s, [Emit.answerEv pid sdp id])) ∧
    (∀ s id pid c, iceCandidateRelay s id pid c = (s, [Emit.iceCandidateEv pid c id])) := by
  refine ⟨?_, ?_, fun s id pid sdp => rfl, fun s id pid sdp => rfl, fun s id pid c => rfl⟩
  · intro s id pid m hne
    cases hu : mget s.users id with
    | none =>
      rw [chatMessage_no_user s id pid m hu] at hne
      simp at hne
    | some u =>
      by_cases hg : u.state = UserState.IN_CHAT ∧ pid ≠ ""
      · exact ⟨u, rfl, hg.1⟩
      · rw [chatMessage_blocked s id pid m u hu hg] at hne
        simp at hne
  · intro s id pid m u hu hst hp
    exact chatMessage_run s id pid m u hu ⟨hst, hp⟩

/-- Witness for C8: in the matched A-B state, the chat message from A to B
is forwarded tagged with the id of A. -/
theorem claim_C8_witness :
    chatMessage (run (c1Pre.take 5)) "A" "B" "hi" =
      (run (c1Pre.take 5), [Emit.chatMessageEv "B" "hi" "A"]) :=
  claim_C8.2.1 (run (c1Pre.take 5)) "A" "B" "hi"
    { state := UserState.IN_CHAT, roomId := some 0, profile := some profA,
      persistentId := some "pa" }
    (by decide) rfl (by decide)

theorem isSearching_iff (o : Option User) :
    isSearching o = true ↔ ∃ u, o = some u ∧ u.state = UserState.SEARCHING := by
  cases o with
  | none => simp [isSearching]
  | some u => simp [isSearching]

theorem mget_none_of_all_lt (m : List (Nat × (String × String))) (n : Nat)
    (h : ∀ rid p, (rid, p) ∈ m → rid < n) : mget m n = none := by
  induction m with
  | nil => rfl
  | cons hd tl ih =>
    rw [mget_cons]
    have hlt : hd.1 < n := h hd.1 hd.2 (by simp)
    rw [if_neg (by omega)]
    exact ih (fun rid p hp => h rid p (by simp [hp]))

theorem matchedState_users (s : EngineState) (u1 u2 x : String) (rest : List String)
    (hx : x = u1 ∨ x = u2) (u : User) (hu : mget s.users x = some u) :
    mget (matchedState s u1 u2 rest).users x =
      some { u with state := UserState.IN_CHAT, roomId := some s.nextRoomId } := by
  rw [matchedState]
  simp only []
  rw [mget_setMatched, mget_setMatched]
  by_cases h2 : x = u2
  · rw [if_pos h2]
    by_cases h1 : x = u1
    · rw [if_pos h1, hu]
      simp
    · rw [if_neg h1, hu]
      simp
  · rw [if_neg h2]
    by_cases h1 : x = u1
    · rw [if_pos h1, hu]
      simp
    · rcases hx with hx | hx
      · exact absurd hx h1
      · exact absurd hx h2

/-- C3: a single Matchmaker call behaves exactly as specified: (i) with
fewer than two pool entries it terminates at once with no side effects;
(ii) when the first popped id is stale only that id is discarded and
the other popped id is pushed back to the front of the pool before the
loop continues; (iii) symmetrically when the second popped id is stale;
(iv) when both popped ids validate, a fresh unique room id (unused in
the registry whenever all existing room ids are below the counter) is
allocated, the room is created with the two popped members, both
transition to IN_CHAT with that room id, and the loop continues on the
remaining pool. -/
theorem claim_C3 (s : EngineState) :
    (s.waitingPool.length < 2 → tryMatch s = (s, [])) ∧
    (∀ u1 u2 rest, s.waitingPool = u1 :: u2 :: rest →
      ((isSearching (mget s.users u1) = false → u2 ≠ "" →
        tryMatch s = tryMatch { s with waitingPool := u2 :: rest }) ∧
       (isSearching (mget s.users u1) = true → isSearching (mget s.users u2) = false →
        u1 ≠ "" →
        tryMatch s = tryMatch { s with waitingPool := u1 :: rest }) ∧
       (isSearching (mget s.users u1) = true → isSearching (mget s.users u2) = true →
        tryMatch s = ((tryMatch (matchedState s u1 u2 rest)).1,
            matchEmits s u1 u2 ++ (tryMatch (matchedState s u1 u2 rest)).2) ∧
        ((∀ rid p, (rid, p) ∈ s.rooms → rid < s.nextRoomId) →
          mget s.rooms s.nextRoomId = none) ∧
        mget (matchedState s u1 u2 rest).rooms s.nextRoomId = some (u1, u2) ∧
        (matchedState s u1 u2 rest).waitingPool = rest ∧
        (∀ x, x = u1 ∨ x = u2 → ∃ u, mget s.users x = some u ∧
          u.state = UserState.SEARCHING ∧
          mget (matchedState s u1 u2 rest).users x =
            some { u with state := UserState.IN_CHAT, roomId := some s.nextRoomId })))) := by
  refine ⟨tryMatch_small s, fun u1 u2 rest hp => ⟨?_, ?_, ?_⟩⟩
  · intro h1 hne
    rw [tryMatch_stale1 s u1 u2 rest hp h1, if_pos hne]
  · intro h1 h2 hne
    rw [tryMatch_stale2 s u1 u2 rest hp h1 h2, if_pos hne]
  · intro h1 h2
    refine ⟨tryMatch_match s u1 u2 rest hp h1 h2, mget_none_of_all_lt s.rooms s.nextRoomId,
      ?_, rfl, ?_⟩
    · rw [matchedState]
      simp only []
      exact mget_mset_self s.rooms s.nextRoomId (u1, u2)
    · intro x hx
      have hsx : isSearching (mget s.users x) = true := by
        rcases hx with hx | hx
        · rw [hx]
          exact h1
        · rw [hx]
          exact h2
      obtain ⟨u, hu, hust⟩ := (isSearching_iff (mget s.users x)).mp hsx
      exact ⟨u, hu, hust, matchedState_users s u1 u2 x rest hx u hu⟩

/-- Witness state for C3: two searching users A and B in the pool. -/
def c3State : EngineState :=
  { users :=
      [("A", { state := UserState.SEARCHING, roomId := none, profile := none,
               persistentId := none }),
       ("B", { state := UserState.SEARCHING, roomId := none, profile := none,
               persistentId := none })]
    waitingPool := ["A", "B"]
    rooms := []
    nextRoomId := 0 }

/-- Witness for C3 at `c3State`: the valid-valid branch fires, the
fresh room 0 is created with members (A, B). -/
theorem claim_C3_witness :
    mget (matchedState c3State "A" "B" []).rooms 0 = some ("A", "B") ∧
    tryMatch c3State = ((tryMatch (matchedState c3State "A" "B" [])).1,
      matchEmits c3State "A" "B" ++ (tryMatch (matchedState c3State "A" "B" [])).2) := by
  have h := ((claim_C3 c3State).2 "A" "B" [] rfl).2.2 (by decide) (by decide)
  exact ⟨h.2.2.1, h.1⟩

theorem requeueFront_not_mem (pool : List String) (x : String) (h : x ∉ pool) :
    requeueFront pool x = x :: pool := by
  rw [requeueFront, if_neg]
  simpa using h

theorem appendBack_not_mem (pool : List String) (x : String) (h : x ∉ pool) :
    appendBack pool x = pool ++ [x] := by
  rw [appendBack, if_neg]
  simpa using h

/-- C5: whenever a cleanup trigger requeues the partner of a dissolved
pairing, the partner id is inserted at the front of the waiting pool:
disconnect unshifts it unconditionally onto the actor-erased pool,
while skip-chat, stop-chat and initiate-report unshift it when absent;
the acting user — requeued only by skip-chat — is appended at the
back. -/
theorem claim_C5 (s : EngineState) (id : String) (user partner : User) (roomId : Nat)
    (room : String × String) (partnerId : String)
    (hu : mget s.users id = some user)
    (hrm : user.roomId = some roomId)
    (hroom : mget s.rooms roomId = some room)
    (hpid : findPartner room id = some partnerId)
    (hpartner : mget s.users partnerId = some partner) :
    (user.state = UserState.IN_CHAT →
      handleDisconnect s id =
        (let r := tryMatch { s with
            users := mset s.users partnerId
              { partner with state := UserState.SEARCHING, roomId := none }
            waitingPool := partnerId :: s.waitingPool.erase id }
         ({ r.1 with rooms := mdel r.1.rooms roomId, users := mdel r.1.users id },
          [Emit.partnerDisconnected partnerId, Emit.autoSearching partnerId] ++ r.2))) ∧
    (user.state = UserState.IN_CHAT → id ∉ s.waitingPool →
      partnerId ∉ s.waitingPool ++ [id] →
      skipChat s id =
        (let r := tryMatch { s with
            users := mset
              (mset s.users id { user with state := UserState.SEARCHING, roomId := none })
              partnerId { partner with state := UserState.SEARCHING, roomId := none }
            waitingPool := partnerId :: (s.waitingPool ++ [id])
            rooms := mdel s.rooms roomId }
         (r.1, [Emit.partnerDisconnected partnerId, Emit.autoSearching id,
                Emit.autoSearching partnerId] ++ r.2))) ∧
    (user.state = UserState.IN_CHAT → partnerId ∉ s.waitingPool →
      stopChat s id =
        (let r := tryMatch { s with
            users := mset
              (mset s.users id { user with state := UserState.IDLE, roomId := none })
              partnerId { partner with state := UserState.SEARCHING, roomId := none }
            waitingPool := partnerId :: s.waitingPool
            rooms := mdel s.rooms roomId }
         (r.1, [Emit.partnerDisconnected partnerId, Emit.autoSearching partnerId] ++ r.2))) ∧
    (∀ ok, user.state = UserState.IN_CHAT → truthyStr user.persistentId = true →
      truthyStr partner.persistentId = true → partnerId ∉ s.waitingPool →
      initiateReport s id partnerId ok =
        (let r := tryMatch { s with
            users := mset
              (mset s.users id { user with state := UserState.IDLE, roomId := none })
              partnerId { partner with state := UserState.SEARCHING, roomId := none }
            waitingPool := partnerId :: s.waitingPool
            rooms := mdel s.rooms roomId }
         (r.1, [Emit.partnerDisconnected partnerId, Emit.partnerDisconnected id,
                Emit.autoSearching partnerId] ++ r.2 ++
               (if ok then [Emit.reportSuccessful id] else [Emit.reportFailed id])))) := by
  refine ⟨?_, ?_, ?_, ?_⟩
  · intro hst
    exact handleDisconnect_run s id user roomId room partnerId partner hu hst hrm hroom
      hpid hpartner
  · intro hst hid hp2
    rw [skipChat_run s id user roomId room partnerId partner hu hst hrm hroom hpid hpartner]
    rw [appendBack_not_mem s.waitingPool id hid,
      requeueFront_not_mem (s.waitingPool ++ [id]) partnerId hp2]
  · intro hst hp2
    rw [stopChat_run s id user roomId room partnerId partner hu hst hrm hroom hpid hpartner]
    rw [requeueFront_not_mem s.waitingPool partnerId hp2]
  · intro ok hst hpu hpp hp2
    rw [initiateReport_run s id partnerId ok user partner roomId hu hpartner hst hrm hpu hpp]
    rw [requeueFront_not_mem s.waitingPool partnerId hp2]

/-- Witness for C5: in the matched A-B state with an empty pool, a
stop-chat from A leaves the requeued partner B at the front of the
pool. -/
theorem claim_C5_witness :
    (stopChat (run (c1Pre.take 5)) "A").1.waitingPool =
      "B" :: (run (c1Pre.take 5)).waitingPool := by
  have h := (claim_C5 (run (c1Pre.take 5)) "A"
    { state := UserState.IN_CHAT, roomId := some 0, profile := some profA,
      persistentId := some "pa" }
    { state := UserState.IN_CHAT, roomId := some 0, profile := some profB,
      persistentId := some "pb" }
    0 ("A", "B") "B" (by decide) rfl (by decide) (by decide) (by decide)).2.2.1 rfl
    (by decide)
  rw [h]
  decide

/-- Events reaching a state where X is SEARCHING with no live room and
sits in the waiting pool. -/
def c6Events : List Event := [Event.connect "X", Event.startSearching "X" profA]

/-- The record of X after `c6Events`. -/
def uXsearching : User :=
  { state := UserState.SEARCHING, roomId := none, profile := some profA,
    persistentId := some "pa" }

/-- C6 counterexample: with X SEARCHING (hence no live room) and the
pool equal to [X], the claim predicts that skip-chat still performs the
waiting-pool removal; the code ignores the event entirely: the state is
unchanged and the pool still contains X, unlike the pool with the entry
removed. -/
theorem claim_C6_counterexample :
    (∃ u, mget (run c6Events).users "X" = some u ∧ u.state = UserState.SEARCHING ∧
      u.roomId = none) ∧
    (run c6Events).waitingPool = ["X"] ∧
    stepState (run c6Events) (Event.skipChat "X") = run c6Events ∧
    (stepState (run c6Events) (Event.skipChat "X")).waitingPool ≠
      (run c6Events).waitingPool.erase "X" := by
  refine ⟨⟨uXsearching, by decide, by decide, by decide⟩,
    by decide, by decide, by decide⟩

/-- C6 amended: when the acting user has no live room the four cleanup
triggers are safe to call but perform less than claimed: skip-chat and
stop-chat ignore the event entirely (no pool removal, no state
disposition, no matchmaker invocation, no notification); an
initiate-report is ignored when the acting user is missing, not
IN_CHAT, or has no roomId (the room registry is not consulted at all);
disconnect still removes the pool entry and destroys the user record,
with no matchmaker invocation and no notification. -/
theorem claim_C6_amended (s : EngineState) (id : String) :
    (∀ u, mget s.users id = some u →
      (u.state ≠ UserState.IN_CHAT ∨ u.roomId = none ∨
       (∃ rid, u.roomId = some rid ∧ mget s.rooms rid = none)) →
      skipChat s id = (s, []) ∧ stopChat s id = (s, [])) ∧
    (mget s.users id = none → skipChat s id = (s, []) ∧ stopChat s id = (s, []) ∧
      (∀ pid ok, initiateReport s id pid ok = (s, [])) ∧
      handleDisconnect s id = (s, [])) ∧
    (∀ u pid ok, mget s.users id = some u →
      (u.state ≠ UserState.IN_CHAT ∨ u.roomId = none) →
      initiateReport s id pid ok = (s, [])) ∧
    (∀ u, mget s.users id = some u →
      (u.state ≠ UserState.IN_CHAT ∨ u.roomId = none ∨
       (∃ rid, u.roomId = some rid ∧ mget s.rooms rid = none)) →
      handleDisconnect s id =
        ({ s with waitingPool := s.waitingPool.erase id, users := mdel s.users id }, [])) := by
  refine ⟨?_, ?_, ?_, ?_⟩
  · intro u hu hcase
    rcases hcase with hcase | hcase | ⟨rid, hrm, hroom⟩
    · exact ⟨skipChat_not_in_chat s id u hu hcase, stopChat_not_in_chat s id u hu hcase⟩
    · by_cases hst : u.state = UserState.IN_CHAT
      · exact ⟨skipChat_no_roomid s id u hu hst hcase, stopChat_no_roomid s id u hu hst hcase⟩
      · exact ⟨skipChat_not_in_chat s id u hu hst, stopChat_not_in_chat s id u hu hst⟩
    · by_cases hst : u.state = UserState.IN_CHAT
      · exact ⟨skipChat_no_room s id u rid hu hst hrm hroom,
          stopChat_no_room s id u rid hu hst hrm hroom⟩
      · exact ⟨skipChat_not_in_chat s id u hu hst, stopChat_not_in_chat s id u hu hst⟩
  · intro hu
    refine ⟨skipChat_no_user s id hu, stopChat_no_user s id hu,
      fun pid ok => initiateReport_no_user s id pid ok hu, handleDisconnect_no_user s id hu⟩
  · intro u pid ok hu hcase
    cases hp : mget s.users pid with
    | none => exact initiateReport_no_partner s id pid ok u hu hp
    | some partner =>
      refine initiateReport_invalid s id pid ok u partner hu hp ?_
      rintro ⟨hst, hrm, h3, h4⟩
      rcases hcase with hcase | hcase
      · exact hcase hst
      · rw [hcase] at hrm
        simp at hrm
  · intro u hu hcase
    rcases hcase with hcase | hcase | ⟨rid, hrm, hroom⟩
    · exact handleDisconnect_not_in_chat s id u hu hcase
    · by_cases hst : u.state = UserState.IN_CHAT
      · exact handleDisconnect_no_roomid s id u hu hst hcase
      · exact handleDisconnect_not_in_chat s id u hu hst
    · by_cases hst : u.state = UserState.IN_CHAT
      · exact handleDisconnect_no_room s id u rid hu hst hrm hroom
      · exact handleDisconnect_not_in_chat s id u hu hst

/-- Witness for the amended C6 at the counterexample state: the
skip-chat from a searching X really is a complete no-op. -/
theorem claim_C6_witness :
    skipChat (run c6Events) "X" = (run c6Events, []) :=
  ((claim_C6_amended (run c6Events) "X").1 uXsearching
    (by decide) (Or.inr (Or.inl rfl))).1

/-- C7: for a valid initiate-report, the post-handler engine state is
exactly the pairing-dissolution-and-rematch state and is the same
whether the external report call succeeds or fails (cleanup completes
before the call is awaited; a failure rolls nothing back); the success
and failure runs emit the same event sequence except for the final
report-successful / report-failed event, which is delivered to the
reporting connection only. -/
theorem claim_C7 (s : EngineState) (id pid : String) (user partner : User) (roomId : Nat)
    (hu : mget s.users id = some user) (hp : mget s.users pid = some partner)
    (hst : user.state = UserState.IN_CHAT) (hrm : user.roomId = some roomId)
    (hpu : truthyStr user.persistentId = true)
    (hpp : truthyStr partner.persistentId = true) :
    (∀ ok, (initiateReport s id pid ok).1 =
      (tryMatch { s with
          users := mset
            (mset s.users id { user with state := UserState.IDLE, roomId := none })
            pid { partner with state := UserState.SEARCHING, roomId := none }
          waitingPool := requeueFront s.waitingPool pid
          rooms := mdel s.rooms roomId }).1) ∧
    (∃ E, (initiateReport s id pid true).2 = E ++ [Emit.reportSuccessful id] ∧
          (initiateReport s id pid false).2 = E ++ [Emit.reportFailed id]) := by
  constructor
  · intro ok
    rw [initiateReport_run s id pid ok user partner roomId hu hp hst hrm hpu hpp]
  · rw [initiateReport_run s id pid true user partner roomId hu hp hst hrm hpu hpp,
        initiateReport_run s id pid false user partner roomId hu hp hst hrm hpu hpp]
    refine ⟨[Emit.partnerDisconnected pid, Emit.partnerDisconnected id,
        Emit.autoSearching pid] ++
      (tryMatch { s with
          users := mset
            (mset s.users id { user with state := UserState.IDLE, roomId := none })
            pid { partner with state := UserState.SEARCHING, roomId := none }
          waitingPool := requeueFront s.waitingPool pid
          rooms := mdel s.rooms roomId }).2, ?_, ?_⟩
    · simp
    · simp

/-- The record of A in the matched A-B state. -/
def uAmatched : User :=
  { state := UserState.IN_CHAT, roomId := some 0, profile := some profA,
    persistentId := some "pa" }

/-- The record of B in the matched A-B state. -/
def uBmatched : User :=
  { state := UserState.IN_CHAT, roomId := some 0, profile := some profB,
    persistentId := some "pb" }

/-- Witness for C7: in the matched A-B state the post-report state is
identical for a failing and a succeeding report call. -/
theorem claim_C7_witness :
    (initiateReport (run (c1Pre.take 5)) "A" "B" false).1 =
      (initiateReport (run (c1Pre.take 5)) "A" "B" true).1 := by
  have h := (claim_C7 (run (c1Pre.take 5)) "A" "B" uAmatched uBmatched 0
    (by decide) (by decide) rfl rfl (by decide) (by decide)).1
  rw [h true, h false]

/-- Whether an emitted event is a `match-found` for room `r`. -/
def isMatchFoundFor (r : Nat) : Emit → Bool
  | Emit.matchFound _ rid _ _ _ => decide (rid = r)
  | _ => false

theorem tryMatch_mf_lt (s : EngineState) :
    ∀ r, r < s.nextRoomId → (tryMatch s).2.filter (isMatchFoundFor r) = [] := by
  induction s using tryMatch_induction with
  | hsmall s h =>
    intro r hr
    rw [tryMatch_small s h]
    rfl
  | hstale1 s u1 u2 rest hp h1 ih =>
    intro r hr
    rw [tryMatch_stale1 s u1 u2 rest hp h1]
    exact ih r hr
  | hstale2 s u1 u2 rest hp h1 h2 ih =>
    intro r hr
    rw [tryMatch_stale2 s u1 u2 rest hp h1 h2]
    exact ih r hr
  | hmatch s u1 u2 rest hp h1 h2 ih =>
    intro r hr
    rw [tryMatch_match s u1 u2 rest hp h1 h2]
    dsimp only
    rw [List.filter_append]
    have hne : isMatchFoundFor r (Emit.matchFound u1 s.nextRoomId u2 true
        ((mget s.users u2).bind User.profile)) = false := by
      simp only [isMatchFoundFor]
      simp
      omega
    have hne2 : isMatchFoundFor r (Emit.matchFound u2 s.nextRoomId u1 false
        ((mget s.users u1).bind User.profile)) = false := by
      simp only [isMatchFoundFor]
      simp
      omega
    have hih := ih r (show r < (matchedState s u1 u2 rest).nextRoomId from by
      show r < s.nextRoomId + 1
      omega)
    rw [matchEmits]
    simp only [List.filter, hne, hne2, hih]
    rfl

theorem tryMatch_rooms_lt (s : EngineState) :
    ∀ r, r < s.nextRoomId → mget (tryMatch s).1.rooms r = mget s.rooms r := by
  induction s using tryMatch_induction with
  | hsmall s h =>
    intro r hr
    rw [tryMatch_small s h]
  | hstale1 s u1 u2 rest hp h1 ih =>
    intro r hr
    rw [tryMatch_stale1 s u1 u2 rest hp h1]
    exact ih r hr
  | hstale2 s u1 u2 rest hp h1 h2 ih =>
    intro r hr
    rw [tryMatch_stale2 s u1 u2 rest hp h1 h2]
    exact ih r hr
  | hmatch s u1 u2 rest hp h1 h2 ih =>
    intro r hr
    rw [tryMatch_match s u1 u2 rest hp h1 h2]
    dsimp only
    have hih := ih r (show r < (matchedState s u1 u2 rest).nextRoomId from by
      show r < s.nextRoomId + 1
      omega)
    rw [hih]
    show mget (mset s.rooms s.nextRoomId (u1, u2)) r = mget s.rooms r
    exact mget_mset_ne s.rooms s.nextRoomId r (u1, u2) (by omega)

/-- C10: for every room a `tryMatch` call creates, the `match-found`
event with initiator=true goes to the first-popped (longest waiting)
member — stored as the first component of the room pair — and the event
with initiator=false to the second-popped member; every room id occurs
in at most one true-flagged and one false-flagged event, never two of
the same flag. -/
theorem claim_C10 (s : EngineState) :
    (∀ r, (tryMatch s).2.filter (isMatchFoundFor r) = [] ∨
      (∃ u1 u2 p1 p2, mget (tryMatch s).1.rooms r = some (u1, u2) ∧
        (tryMatch s).2.filter (isMatchFoundFor r) =
          [Emit.matchFound u1 r u2 true p2, Emit.matchFound u2 r u1 false p1])) ∧
    (∀ u1 u2 rest, s.waitingPool = u1 :: u2 :: rest →
      isSearching (mget s.users u1) = true → isSearching (mget s.users u2) = true →
      (tryMatch s).2 =
        Emit.matchFound u1 s.nextRoomId u2 true ((mget s.users u2).bind User.profile) ::
        Emit.matchFound u2 s.nextRoomId u1 false ((mget s.users u1).bind User.profile) ::
        (tryMatch (matchedState s u1 u2 rest)).2) := by
  constructor
  · induction s using tryMatch_induction with
    | hsmall s h =>
      intro r
      rw [tryMatch_small s h]
      exact Or.inl rfl
    | hstale1 s u1 u2 rest hp h1 ih =>
      intro r
      rw [tryMatch_stale1 s u1 u2 rest hp h1]
      exact ih r
    | hstale2 s u1 u2 rest hp h1 h2 ih =>
      intro r
      rw [tryMatch_stale2 s u1 u2 rest hp h1 h2]
      exact ih r
    | hmatch s u1 u2 rest hp h1 h2 ih =>
      intro r
      rw [tryMatch_match s u1 u2 rest hp h1 h2]
      dsimp only
      rw [List.filter_append]
      by_cases hr : r = s.nextRoomId
      · have ht1 : isMatchFoundFor r (Emit.matchFound u1 s.nextRoomId u2 true
            ((mget s.users u2).bind User.profile)) = true := by
          simp [isMatchFoundFor, hr]
        have ht2 : isMatchFoundFor r (Emit.matchFound u2 s.nextRoomId u1 false
            ((mget s.users u1).bind User.profile)) = true := by
          simp [isMatchFoundFor, hr]
        have hrec : (tryMatch (matchedState s u1 u2 rest)).2.filter (isMatchFoundFor r) = [] :=
          tryMatch_mf_lt (matchedState s u1 u2 rest) r
            (show r < s.nextRoomId + 1 from by omega)
        right
        refine ⟨u1, u2, (mget s.users u1).bind User.profile,
          (mget s.users u2).bind User.profile, ?_, ?_⟩
        · rw [tryMatch_rooms_lt (matchedState s u1 u2 rest) r
            (show r < s.nextRoomId + 1 from by omega)]
          show mget (mset s.rooms s.nextRoomId (u1, u2)) r = some (u1, u2)
          rw [hr]
          exact mget_mset_self s.rooms s.nextRoomId (u1, u2)
        · rw [matchEmits]
          simp only [List.filter_cons, ht1, ht2, if_pos, hrec]
          rw [hr]
          simp
      · have hne1 : isMatchFoundFor r (Emit.matchFound u1 s.nextRoomId u2 true
            ((mget s.users u2).bind User.profile)) = false := by
          simp only [isMatchFoundFor]
          simp
          exact fun hh => hr hh.symm
        have hne2 : isMatchFoundFor r (Emit.matchFound u2 s.nextRoomId u1 false
            ((mget s.users u1).bind User.profile)) = false := by
          simp only [isMatchFoundFor]
          simp
          exact fun hh => hr hh.symm
        rw [matchEmits]
        simp only [List.filter_cons, hne1, hne2]
        simp only [Bool.false_eq_true, if_false, List.filter_nil, List.nil_append]
        exact ih r

  · intro u1 u2 rest hp h1 h2
    rw [tryMatch_match s u1 u2 rest hp h1 h2]
    rw [matchEmits]
    rfl

/-- Witness for C10 at `c3State`: the pairing emits initiator=true to
first-popped A and initiator=false to second-popped B. -/
theorem claim_C10_witness :
    (tryMatch c3State).2 =
      Emit.matchFound "A" c3State.nextRoomId "B" true
        ((mget c3State.users "B").bind User.profile) ::
      Emit.matchFound "B" c3State.nextRoomId "A" false
        ((mget c3State.users "A").bind User.profile) ::
      (tryMatch (matchedState c3State "A" "B" [])).2 :=
  (claim_C10 c3State).2 "A" "B" [] rfl (by decide) (by decide)

end Yea
